import Mathlib

/-!
Shallow embedding of the LEGO statistics aggregation pipeline
(`postprocess-node.mjs` / `postprocess.ts`, plus the custom-range
aggregation in `CoverageAnalysis.tsx`).

Modelling conventions:
* CSV string values (ids, part numbers, set numbers, names, rgb strings)
  are modelled as natural numbers via an injective encoding; the constant
  `emptyStr` encodes the empty string and `unknownName` encodes the
  literal string "Unknown".
* A row's `quantity` field is the already-parsed value of
  `parseInt(ip.quantity) || 0` (a non-negative integer, non-numeric input
  becoming 0), and a set's `year` is `parseInt(set.year)` with `none`
  modelling NaN.
* JavaScript numbers that can be non-finite (NaN or Infinity, arising from
  division by a zero total) are modelled as `Option ℚ`, `none` being the
  non-finite case.  `parseFloat(x.toFixed(4))` on a finite value is
  modelled by exact rational rounding to 4 decimal places with ties
  rounded up, which is what `toFixed` does on the (binary-exact or
  non-tie) values arising in this development.
* JavaScript `Map`s are modelled as insertion-ordered association lists;
  `Array.prototype.sort` (stable since ES2019) is modelled by the stable
  `List.insertionSort`.
-/

namespace LegoStats

/-- Encoding of the empty string under the strings-as-naturals convention. -/
def emptyStr : ℕ := 0

/-- Encoding of the literal string "Unknown" used as a fallback name. -/
def unknownName : ℕ := 1

/-- Model of `parseFloat(x.toFixed(4))` on a finite JS number: round to 4
decimal places, ties away from zero (half-up for the non-negative values
occurring here). -/
def round4 (x : ℚ) : ℚ := (Int.floor (x * 10000 + 1/2) : ℚ) / 10000

/-- Model of `parseFloat(x.toFixed(2))` on a finite JS number. -/
def round2 (x : ℚ) : ℚ := (Int.floor (x * 100 + 1/2) : ℚ) / 100

/-- Model of `parseFloat(((q / total) * 100).toFixed(4))` for natural
`q`, `total`.  Division by a zero total produces a non-finite value
(NaN when `q = 0`), modelled as `none`. -/
def jsPct (q total : ℕ) : Option ℚ :=
  if total = 0 then none else some (round4 ((q : ℚ) / (total : ℚ) * 100))

/-- Model of the unrounded `(a / b) * 100` used by the frontend custom-range
path; `none` models the non-finite result of dividing by zero. -/
def jsRawPct (a b : ℕ) : Option ℚ :=
  if b = 0 then none else some ((a : ℚ) / (b : ℚ) * 100)

/-- One record of `inventory_parts.csv` after field parsing. -/
structure InventoryPartRow where
  inventory_id : ℕ
  part_num : ℕ
  color_id : ℕ
  quantity : ℕ
  img_url : Option ℕ
deriving DecidableEq, Repr

/-- One record of `colors.csv`. -/
structure Color where
  id : ℕ
  name : ℕ
  rgb : ℕ
deriving DecidableEq, Repr

/-- One record of `parts.csv` (fields the pipeline reads). -/
structure Part where
  part_num : ℕ
  name : ℕ
deriving DecidableEq, Repr

/-- One record of `sets.csv` (fields the pipeline reads); `year` is
`parseInt(set.year)` with `none` for NaN. -/
structure SetRec where
  set_num : ℕ
  year : Option ℤ
  num_parts : ℕ
deriving DecidableEq, Repr

/-- First-match lookup in an insertion-ordered association list,
modelling `Map.prototype.get`. -/
def mapGet {κ α : Type} [DecidableEq κ] : List (κ × α) → κ → Option α
  | [], _ => none
  | (k', v) :: rest, k => if k' = k then some v else mapGet rest k

/-- Model of `Map.prototype.set`: replace the value at an existing key in
place, otherwise append at the end. -/
def mapSet {κ α : Type} [DecidableEq κ] : List (κ × α) → κ → α → List (κ × α)
  | [], k, v => [(k, v)]
  | (k', v') :: rest, k, v =>
    if k' = k then (k, v) :: rest else (k', v') :: mapSet rest k v

/-- Builds the color lookup map (`colorMap.set(c.id, c)` per color). -/
def buildColorMap (colors : List Color) : List (ℕ × Color) :=
  colors.foldl (fun m c => mapSet m c.id c) []

/-- Builds the part lookup map (`partMap.set(p.part_num, p)` per part). -/
def buildPartMap (parts : List Part) : List (ℕ × Part) :=
  parts.foldl (fun m p => mapSet m p.part_num p) []

/-- Builds the set lookup map (`setMap.set(s.set_num, s)` per set). -/
def buildSetMap (sets : List SetRec) : List (ℕ × SetRec) :=
  sets.foldl (fun m s => mapSet m s.set_num s) []

/-- One record of `inventories.csv` (fields the pipeline reads). -/
structure Inventory where
  id : ℕ
  set_num : ℕ
deriving DecidableEq, Repr

/-- Builds the inventory-to-set map with first-write-wins semantics
(`if (!inventoryToSetMap.has(inv.id)) inventoryToSetMap.set(...)`). -/
def buildInventoryToSetMap (inventories : List Inventory) : List (ℕ × ℕ) :=
  inventories.foldl
    (fun m inv => if (mapGet m inv.id).isSome then m else m ++ [(inv.id, inv.set_num)]) []

/-- Stable descending sort by a key, modelling
`array.sort((a, b) => key(b) - key(a))` on a stable JS engine. -/
def sortDescBy {α κ : Type} [LinearOrder κ] (q : α → κ) (l : List α) : List α :=
  List.insertionSort (fun a b => q b ≤ q a) l

/-- Stable ascending sort by a key, modelling
`array.sort((a, b) => key(a) - key(b))`. -/
def sortAscBy {α κ : Type} [LinearOrder κ] (q : α → κ) (l : List α) : List α :=
  List.insertionSort (fun a b => q a ≤ q b) l

/-! ## Color aggregation (`colorAgg` / `colorStats`) -/

/-- Value stored in the `colorAgg` map: `{ name, color: "#rgb", quantity }`.
The `color` field stores the rgb value behind the `#` prefix character. -/
structure ColorAggEntry where
  name : ℕ
  color : ℕ
  quantity : ℕ
deriving DecidableEq, Repr

/-- Adds a resolved row to the color aggregation map, whose key is the
string `` `${color.rgb}-${color.name}` `` (modelled as the pair). -/
def colorBump (c : Color) (qty : ℕ) : List ColorAggEntry → List ColorAggEntry
  | [] => [⟨c.name, c.rgb, qty⟩]
  | e :: rest =>
    if (e.color, e.name) = (c.rgb, c.name) then
      { e with quantity := e.quantity + qty } :: rest
    else e :: colorBump c qty rest

/-- One iteration of the color-stats loop: rows whose `color_id` does not
resolve in the color map are skipped. -/
def colorAggStep (colorMap : List (ℕ × Color)) (m : List ColorAggEntry)
    (ip : InventoryPartRow) : List ColorAggEntry :=
  match mapGet colorMap ip.color_id with
  | none => m
  | some c => colorBump c ip.quantity m

/-- The `colorAgg` map after scanning all inventory-part rows. -/
def colorAgg (colorMap : List (ℕ × Color)) (rows : List InventoryPartRow) :
    List ColorAggEntry :=
  rows.foldl (colorAggStep colorMap) []

/-- Grand total `totalPieces` (reduce over the aggregated color values). -/
def totalPieces (colorMap : List (ℕ × Color)) (rows : List InventoryPartRow) : ℕ :=
  (colorAgg colorMap rows).foldl (fun s c => s + c.quantity) 0

/-- Output item of `color-stats.json`. -/
structure ColorStat where
  name : ℕ
  color : ℕ
  quantity : ℕ
  percent : Option ℚ
  rank : ℕ
  cumulative_percent : Option ℚ
deriving DecidableEq, Repr

/-- The `sortedColors.map((c, index) => ...)` pass: running cumulative
quantity and 1-based rank. -/
def colorStatsAux (total : ℕ) : ℕ → ℕ → List ColorAggEntry → List ColorStat
  | _, _, [] => []
  | cum, idx, c :: rest =>
    ⟨c.name, c.color, c.quantity, jsPct c.quantity total, idx + 1,
      jsPct (cum + c.quantity) total⟩
      :: colorStatsAux total (cum + c.quantity) (idx + 1) rest

/-- The `colorStats` array written to `color-stats.json`. -/
def colorStats (colorMap : List (ℕ × Color)) (rows : List InventoryPartRow) :
    List ColorStat :=
  colorStatsAux (totalPieces colorMap rows) 0 0
    (sortDescBy ColorAggEntry.quantity (colorAgg colorMap rows))

/-! ## Part aggregation (`partAgg` / `partFrequency`) -/

/-- Value stored in the `partAgg` map, keyed by `part_num`. -/
structure PartAggEntry where
  part_num : ℕ
  quantity : ℕ
  img_url : Option ℕ
deriving DecidableEq, Repr

/-- Adds a row to the part aggregation map (no reference-map lookup is
involved; every row is aggregated by its `part_num`). -/
def partBump (ip : InventoryPartRow) : List PartAggEntry → List PartAggEntry
  | [] => [⟨ip.part_num, ip.quantity, ip.img_url⟩]
  | e :: rest =>
    if e.part_num = ip.part_num then
      { e with
        quantity := e.quantity + ip.quantity,
        img_url := if ip.img_url.isSome ∧ e.img_url = none then ip.img_url else e.img_url }
        :: rest
    else e :: partBump ip rest

/-- The `partAgg` map after scanning all inventory-part rows. -/
def partAgg (rows : List InventoryPartRow) : List PartAggEntry :=
  rows.foldl (fun m ip => partBump ip m) []

/-- Grand total `totalPartsQuantity` (reduce over the sorted parts). -/
def totalPartsQuantity (rows : List InventoryPartRow) : ℕ :=
  (sortDescBy PartAggEntry.quantity (partAgg rows)).foldl (fun s p => s + p.quantity) 0

/-- Output item of `part-frequency.json`. -/
structure PartFreq where
  part_num : ℕ
  name : ℕ
  quantity : ℕ
  image : Option ℕ
  rank : ℕ
  percent : Option ℚ
  cumulative_percent : Option ℚ
deriving DecidableEq, Repr

/-- The display-name lookup `part?.name || "Unknown"`. -/
def partNameOf (partMap : List (ℕ × Part)) (k : ℕ) : ℕ :=
  match mapGet partMap k with
  | some part => part.name
  | none => unknownName

/-- The `sortedParts.map((p, index) => ...)` pass; the display name falls
back to "Unknown" when the part number is not in the part map. -/
def partFrequencyAux (partMap : List (ℕ × Part)) (total : ℕ) :
    ℕ → ℕ → List PartAggEntry → List PartFreq
  | _, _, [] => []
  | cum, idx, p :: rest =>
    ⟨p.part_num, partNameOf partMap p.part_num,
      p.quantity, p.img_url, idx + 1, jsPct p.quantity total,
      jsPct (cum + p.quantity) total⟩
      :: partFrequencyAux partMap total (cum + p.quantity) (idx + 1) rest

/-- The `partFrequency` array written to `part-frequency.json`. -/
def partFrequency (partMap : List (ℕ × Part)) (rows : List InventoryPartRow) :
    List PartFreq :=
  partFrequencyAux partMap (totalPartsQuantity rows) 0 0
    (sortDescBy PartAggEntry.quantity (partAgg rows))

/-! ## Threshold search (`findThresholdIndex` / `getThresholdItems`) -/

/-- JS `>=` comparison of a possibly non-finite number against a finite
threshold: any comparison with NaN is false. -/
def oge (x : Option ℚ) (t : ℚ) : Bool :=
  match x with
  | none => false
  | some v => decide (t ≤ v)

/-- Linear first-crossing scan: the 1-based index of the first item whose
cumulative percent is `>=` the threshold, or the sequence length when no
item crosses. -/
def findThresholdIndex {α : Type} (cum : α → Option ℚ) (t : ℚ) : List α → ℕ
  | [] => 0
  | x :: xs => if oge (cum x) t then 1 else findThresholdIndex cum t xs + 1

/-- The `{name, percent, cumulative_percent}` re-expression used inside
coverage thresholds. -/
structure ThresholdItem where
  name : ℕ
  percent : Option ℚ
  cumulative_percent : Option ℚ
deriving DecidableEq, Repr

/-- A `CoverageThreshold` output record. -/
structure CoverageThreshold where
  count : ℕ
  items : List ThresholdItem
deriving DecidableEq, Repr

/-- The `getThresholdItems` helper: threshold count plus the first
`min(count, 10)` items re-expressed via `proj`. -/
def getThresholdItems {α : Type} (proj : α → ThresholdItem) (items : List α)
    (t : ℚ) : CoverageThreshold :=
  ⟨findThresholdIndex (fun a => (proj a).cumulative_percent) t items,
    (items.take (min (findThresholdIndex (fun a => (proj a).cumulative_percent) t items) 10)).map proj⟩

/-- Re-expression of a `ColorStat` for threshold items. -/
def ColorStat.toThresholdItem (c : ColorStat) : ThresholdItem :=
  ⟨c.name, c.percent, c.cumulative_percent⟩

/-- Re-expression of a `PartFreq` for threshold items. -/
def PartFreq.toThresholdItem (p : PartFreq) : ThresholdItem :=
  ⟨p.name, p.percent, p.cumulative_percent⟩

/-! ## General lemmas -/

theorem foldl_add_eq {α : Type} (f : α → ℕ) :
    ∀ (l : List α) (n : ℕ), l.foldl (fun s a => s + f a) n = n + (l.map f).sum
  | [], n => by simp
  | a :: l, n => by
    simp [List.foldl_cons, foldl_add_eq f l (n + f a), Nat.add_assoc]

theorem sortDescBy_perm {α κ : Type} [LinearOrder κ] (q : α → κ) (l : List α) :
    List.Perm (sortDescBy q l) l :=
  List.perm_insertionSort _ l

theorem sortAscBy_perm {α κ : Type} [LinearOrder κ] (q : α → κ) (l : List α) :
    List.Perm (sortAscBy q l) l :=
  List.perm_insertionSort _ l

theorem round4_sub_abs_le (x : ℚ) : |round4 x - x| ≤ 1 / 20000 := by
  have h1 : (Int.floor (x * 10000 + 1/2) : ℚ) ≤ x * 10000 + 1/2 := Int.floor_le _
  have h2 : x * 10000 + 1/2 - 1 < (Int.floor (x * 10000 + 1/2) : ℚ) :=
    Int.sub_one_lt_floor _
  rw [round4, abs_le]
  constructor <;> linarith

theorem round2_le_add (x : ℚ) : round2 x ≤ x + 1 / 200 := by
  have h1 : (Int.floor (x * 100 + 1/2) : ℚ) ≤ x * 100 + 1/2 := Int.floor_le _
  rw [round2]
  linarith

theorem sum_map_round4_abs_le (xs : List ℚ) :
    |(xs.map round4).sum - xs.sum| ≤ xs.length * (1 / 20000) := by
  induction xs with
  | nil => simp
  | cons x xs ih =>
    have hx := round4_sub_abs_le x
    have hsplit : (round4 x + (xs.map round4).sum) - (x + xs.sum)
        = (round4 x - x) + ((xs.map round4).sum - xs.sum) := by ring
    simp only [List.map_cons, List.sum_cons, List.length_cons]
    rw [hsplit]
    calc |(round4 x - x) + ((xs.map round4).sum - xs.sum)|
        ≤ |round4 x - x| + |(xs.map round4).sum - xs.sum| := abs_add _ _
      _ ≤ 1/20000 + xs.length * (1/20000) := by linarith
      _ = ((xs.length : ℚ) + 1) * (1/20000) := by ring
      _ = ((xs.length + 1 : ℕ) : ℚ) * (1/20000) := by push_cast; ring

/-! ## Threshold-search lemmas (claim C2) -/

theorem findThresholdIndex_le_length {α : Type} (cum : α → Option ℚ) (t : ℚ) :
    ∀ (l : List α), findThresholdIndex cum t l ≤ l.length
  | [] => le_refl _
  | x :: xs => by
    simp only [findThresholdIndex, List.length_cons]
    split
    · omega
    · have := findThresholdIndex_le_length cum t xs
      omega

theorem findThresholdIndex_cons {α : Type} (cum : α → Option ℚ) (t : ℚ)
    (x : α) (xs : List α) :
    findThresholdIndex cum t (x :: xs)
      = if oge (cum x) t then 1 else findThresholdIndex cum t xs + 1 := rfl

theorem findThresholdIndex_pos {α : Type} (cum : α → Option ℚ) (t : ℚ)
    (x : α) (xs : List α) : 1 ≤ findThresholdIndex cum t (x :: xs) := by
  rw [findThresholdIndex_cons]
  split <;> omega

theorem findThresholdIndex_min {α : Type} (cum : α → Option ℚ) (t : ℚ) :
    ∀ (l : List α) (j : ℕ) (h : j < l.length),
      oge (cum (l.get ⟨j, h⟩)) t = true → findThresholdIndex cum t l ≤ j + 1
  | [], j, h => by simp at h
  | x :: xs, j, h => by
    simp only [findThresholdIndex]
    split
    · omega
    · intro hhit
      match j with
      | 0 => simp_all
      | j + 1 =>
        have hj : j < xs.length := by simpa using h
        have := findThresholdIndex_min cum t xs j hj (by simpa using hhit)
        omega

theorem findThresholdIndex_hit {α : Type} (cum : α → Option ℚ) (t : ℚ) :
    ∀ (l : List α), (∃ (j : ℕ) (h : j < l.length), oge (cum (l.get ⟨j, h⟩)) t = true) →
      ∃ (h : findThresholdIndex cum t l - 1 < l.length),
        oge (cum (l.get ⟨findThresholdIndex cum t l - 1, h⟩)) t = true
  | [], hex => by
    obtain ⟨j, h, _⟩ := hex
    simp at h
  | x :: xs, hex => by
    by_cases hx : oge (cum x) t = true
    · refine ⟨by simp [findThresholdIndex, hx], ?_⟩
      simp only [findThresholdIndex, hx, if_true]
      exact hx
    · have hxs : ∃ (j : ℕ) (h : j < xs.length), oge (cum (xs.get ⟨j, h⟩)) t = true := by
        obtain ⟨j, h, hhit⟩ := hex
        match j with
        | 0 => exact absurd (by simpa using hhit) hx
        | j + 1 => exact ⟨j, by simpa using h, by simpa using hhit⟩
      obtain ⟨hlt, hhit⟩ := findThresholdIndex_hit cum t xs hxs
      have hne : xs ≠ [] := by
        intro hnil
        rw [hnil] at hlt
        simp at hlt
      obtain ⟨y, ys, rfl⟩ := List.exists_cons_of_ne_nil hne
      have hpos := findThresholdIndex_pos cum t y ys
      have hlt2 : findThresholdIndex cum t (x :: y :: ys) - 1 < (x :: y :: ys).length := by
        rw [findThresholdIndex_cons, if_neg hx]
        simp only [List.length_cons] at hlt ⊢
        omega
      refine ⟨hlt2, ?_⟩
      have harith : findThresholdIndex cum t (x :: y :: ys) - 1
          = (findThresholdIndex cum t (y :: ys) - 1) + 1 := by
        rw [findThresholdIndex_cons, if_neg hx]
        omega
      simp only [harith, List.get_cons_succ]
      exact hhit

theorem findThresholdIndex_none {α : Type} (cum : α → Option ℚ) (t : ℚ) :
    ∀ (l : List α), (∀ j (h : j < l.length), oge (cum (l.get ⟨j, h⟩)) t = false) →
      findThresholdIndex cum t l = l.length
  | [], _ => rfl
  | x :: xs, hall => by
    have hx : oge (cum x) t = false := by simpa using hall 0 (by simp)
    have hxs : ∀ j (h : j < xs.length), oge (cum (xs.get ⟨j, h⟩)) t = false := by
      intro j h
      simpa using hall (j + 1) (by simpa using h)
    simp [findThresholdIndex, hx, findThresholdIndex_none cum t xs hxs]

/-- Claim C2: for every sequence of items carrying a cumulative percent and
every threshold, the threshold search returns the smallest 1-based count `C`
such that the item at position `C - 1` crosses the threshold — every crossing
position `j` satisfies `C ≤ j + 1`, and if any item crosses then the item at
`C - 1` crosses — and it returns the sequence length when no item crosses;
`getThresholdItems` pairs that count with exactly the first `min(C, 10)`
items re-expressed as `{name, percent, cumulative_percent}` via `proj`. -/
theorem thresholdSearch_spec {α : Type} (proj : α → ThresholdItem)
    (items : List α) (t : ℚ) :
    findThresholdIndex (fun a => (proj a).cumulative_percent) t items ≤ items.length
    ∧ (∀ (j : ℕ) (h : j < items.length),
        oge ((proj (items.get ⟨j, h⟩)).cumulative_percent) t = true →
          findThresholdIndex (fun a => (proj a).cumulative_percent) t items ≤ j + 1)
    ∧ ((∃ (j : ℕ) (h : j < items.length),
          oge ((proj (items.get ⟨j, h⟩)).cumulative_percent) t = true) →
        ∃ (h : findThresholdIndex (fun a => (proj a).cumulative_percent) t items - 1
            < items.length),
          oge ((proj (items.get
              ⟨findThresholdIndex (fun a => (proj a).cumulative_percent) t items - 1, h⟩)
            ).cumulative_percent) t = true)
    ∧ ((∀ (j : ℕ) (h : j < items.length),
          oge ((proj (items.get ⟨j, h⟩)).cumulative_percent) t = false) →
        findThresholdIndex (fun a => (proj a).cumulative_percent) t items = items.length)
    ∧ getThresholdItems proj items t
        = ⟨findThresholdIndex (fun a => (proj a).cumulative_percent) t items,
            (items.take
              (min (findThresholdIndex (fun a => (proj a).cumulative_percent) t items) 10)
            ).map proj⟩ :=
  ⟨findThresholdIndex_le_length (fun a => (proj a).cumulative_percent) t items,
    findThresholdIndex_min (fun a => (proj a).cumulative_percent) t items,
    findThresholdIndex_hit (fun a => (proj a).cumulative_percent) t items,
    findThresholdIndex_none (fun a => (proj a).cumulative_percent) t items,
    rfl⟩

/-- Witness for C2, on the spec's worked example (Red covers 75%, Blue
reaches 100%): position 1 crosses the 80% threshold, so the count is at
most 2. -/
theorem thresholdSearch_spec_witness :
    findThresholdIndex (fun a : ThresholdItem => (id a).cumulative_percent) 80
      [⟨1, some 75, some 75⟩, ⟨2, some 25, some 100⟩] ≤ 1 + 1 :=
  (thresholdSearch_spec id [⟨1, some 75, some 75⟩, ⟨2, some 25, some 100⟩] 80).2.1
    1 (by decide) (by decide)

/-! ## Percent-sum lemmas (claim C1) -/

theorem getLast?_cons_of_ne_nil {α : Type} (a : α) {l : List α} (h : l ≠ []) :
    (a :: l).getLast? = l.getLast? := by
  obtain ⟨b, t, rfl⟩ := List.exists_cons_of_ne_nil h
  exact List.getLast?_cons_cons

theorem sum_map_ratio (t : ℚ) :
    ∀ (l : List ℕ), (l.map (fun n : ℕ => (n : ℚ) / t * 100)).sum = (l.sum : ℚ) / t * 100
  | [] => by simp
  | n :: l => by
    simp only [List.map_cons, List.sum_cons, sum_map_ratio t l]
    push_cast
    ring

unseal Rat.add Rat.mul Rat.inv Rat.sub in
theorem round4_hundred : round4 100 = 100 := by decide

theorem colorStatsAux_length (total : ℕ) :
    ∀ (cum idx : ℕ) (l : List ColorAggEntry),
      (colorStatsAux total cum idx l).length = l.length
  | _, _, [] => rfl
  | cum, idx, c :: rest => by
    simp [colorStatsAux, colorStatsAux_length total (cum + c.quantity) (idx + 1) rest]

theorem colorStatsAux_percents (total : ℕ) (hne : total ≠ 0) :
    ∀ (cum idx : ℕ) (l : List ColorAggEntry),
      (colorStatsAux total cum idx l).map (fun s => s.percent.getD 0)
        = l.map (fun c => round4 ((c.quantity : ℚ) / (total : ℚ) * 100))
  | _, _, [] => rfl
  | cum, idx, c :: rest => by
    simp [colorStatsAux, jsPct, hne,
      colorStatsAux_percents total hne (cum + c.quantity) (idx + 1) rest]

theorem colorStatsAux_last (total : ℕ) :
    ∀ (l : List ColorAggEntry) (cum idx : ℕ), l ≠ [] →
      ∃ s, (colorStatsAux total cum idx l).getLast? = some s
        ∧ s.cumulative_percent
            = jsPct (cum + (l.map ColorAggEntry.quantity).sum) total
  | [], _, _, h => absurd rfl h
  | [c], cum, idx, _ => by
    refine ⟨⟨c.name, c.color, c.quantity, jsPct c.quantity total, idx + 1,
      jsPct (cum + c.quantity) total⟩, by simp [colorStatsAux], ?_⟩
    simp
  | c :: c' :: rest, cum, idx, _ => by
    obtain ⟨s, hs, hcum⟩ :=
      colorStatsAux_last total (c' :: rest) (cum + c.quantity) (idx + 1) (by simp)
    refine ⟨s, ?_, ?_⟩
    · have hne : colorStatsAux total (cum + c.quantity) (idx + 1) (c' :: rest) ≠ [] := by
        intro hnil
        have := colorStatsAux_length total (cum + c.quantity) (idx + 1) (c' :: rest)
        rw [hnil] at this
        simp at this
      calc (colorStatsAux total cum idx (c :: c' :: rest)).getLast?
          = (colorStatsAux total (cum + c.quantity) (idx + 1) (c' :: rest)).getLast? :=
            getLast?_cons_of_ne_nil _ hne
        _ = some s := hs
    · rw [hcum]
      congr 1
      simp only [List.map_cons, List.sum_cons]
      omega

theorem partFrequencyAux_length (partMap : List (ℕ × Part)) (total : ℕ) :
    ∀ (cum idx : ℕ) (l : List PartAggEntry),
      (partFrequencyAux partMap total cum idx l).length = l.length
  | _, _, [] => rfl
  | cum, idx, p :: rest => by
    simp [partFrequencyAux,
      partFrequencyAux_length partMap total (cum + p.quantity) (idx + 1) rest]

theorem partFrequencyAux_percents (partMap : List (ℕ × Part)) (total : ℕ)
    (hne : total ≠ 0) :
    ∀ (cum idx : ℕ) (l : List PartAggEntry),
      (partFrequencyAux partMap total cum idx l).map (fun s => s.percent.getD 0)
        = l.map (fun p => round4 ((p.quantity : ℚ) / (total : ℚ) * 100))
  | _, _, [] => rfl
  | cum, idx, p :: rest => by
    simp [partFrequencyAux, jsPct, hne,
      partFrequencyAux_percents partMap total hne (cum + p.quantity) (idx + 1) rest]

theorem partFrequencyAux_last (partMap : List (ℕ × Part)) (total : ℕ) :
    ∀ (l : List PartAggEntry) (cum idx : ℕ), l ≠ [] →
      ∃ s, (partFrequencyAux partMap total cum idx l).getLast? = some s
        ∧ s.cumulative_percent
            = jsPct (cum + (l.map PartAggEntry.quantity).sum) total
  | [], _, _, h => absurd rfl h
  | [p], cum, idx, _ => by
    refine ⟨⟨p.part_num, partNameOf partMap p.part_num,
      p.quantity, p.img_url, idx + 1, jsPct p.quantity total,
      jsPct (cum + p.quantity) total⟩, by simp [partFrequencyAux], ?_⟩
    simp
  | p :: p' :: rest, cum, idx, _ => by
    obtain ⟨s, hs, hcum⟩ :=
      partFrequencyAux_last partMap total (p' :: rest) (cum + p.quantity) (idx + 1) (by simp)
    refine ⟨s, ?_, ?_⟩
    · have hne : partFrequencyAux partMap total (cum + p.quantity) (idx + 1) (p' :: rest) ≠ [] := by
        intro hnil
        have := partFrequencyAux_length partMap total (cum + p.quantity) (idx + 1) (p' :: rest)
        rw [hnil] at this
        simp at this
      calc (partFrequencyAux partMap total cum idx (p :: p' :: rest)).getLast?
          = (partFrequencyAux partMap total (cum + p.quantity) (idx + 1) (p' :: rest)).getLast? :=
            getLast?_cons_of_ne_nil _ hne
        _ = some s := hs
    · rw [hcum]
      congr 1
      simp only [List.map_cons, List.sum_cons]
      omega

theorem sum_map_round4_pct_abs_le (t : ℕ) (ht : t ≠ 0) (qs : List ℕ)
    (hqs : qs.sum = t) :
    |(qs.map (fun q : ℕ => round4 ((q : ℚ) / (t : ℚ) * 100))).sum - 100|
      ≤ (qs.length : ℚ) * (1 / 20000) := by
  have h1 : qs.map (fun q : ℕ => round4 ((q : ℚ) / (t : ℚ) * 100))
      = (qs.map (fun q : ℕ => (q : ℚ) / (t : ℚ) * 100)).map round4 := by
    rw [List.map_map]
    rfl
  have h2 : (qs.map (fun q : ℕ => (q : ℚ) / (t : ℚ) * 100)).sum
      = (qs.sum : ℚ) / (t : ℚ) * 100 := sum_map_ratio (t : ℚ) qs
  have h3 : ((qs.sum : ℚ)) / (t : ℚ) * 100 = 100 := by
    rw [hqs, div_self (Nat.cast_ne_zero.mpr ht), one_mul]
  have h4 := sum_map_round4_abs_le (qs.map (fun q : ℕ => (q : ℚ) / (t : ℚ) * 100))
  rw [h2, h3] at h4
  rw [h1]
  simpa using h4

/-- Claim C1 (amended): for a positive grand total, the last item of each
aggregated color/part list has cumulative percent exactly 100 (hence within
any rounding tolerance of 100), while the sum of the items' percent values
is within `N * 0.00005` of 100 where `N` is the number of items — each
percent is rounded to 4 decimal places independently, so the aggregate
drift is bounded per item and can exceed 0.01 once there are more than 200
items. -/
theorem aggregatePercentSums (colorMap : List (ℕ × Color))
    (partMap : List (ℕ × Part)) (rows : List InventoryPartRow) :
    (0 < totalPieces colorMap rows →
      (∃ s, (colorStats colorMap rows).getLast? = some s
        ∧ s.cumulative_percent = some 100)
      ∧ |((colorStats colorMap rows).map (fun s => s.percent.getD 0)).sum - 100|
          ≤ ((colorStats colorMap rows).length : ℚ) * (1 / 20000))
    ∧ (0 < totalPartsQuantity rows →
      (∃ p, (partFrequency partMap rows).getLast? = some p
        ∧ p.cumulative_percent = some 100)
      ∧ |((partFrequency partMap rows).map (fun p => p.percent.getD 0)).sum - 100|
          ≤ ((partFrequency partMap rows).length : ℚ) * (1 / 20000)) := by
  constructor
  · intro htot
    have hne0 : totalPieces colorMap rows ≠ 0 := Nat.pos_iff_ne_zero.mp htot
    have htot' : totalPieces colorMap rows
        = ((colorAgg colorMap rows).map ColorAggEntry.quantity).sum := by
      rw [totalPieces, foldl_add_eq]
      simp
    have hperm := sortDescBy_perm ColorAggEntry.quantity (colorAgg colorMap rows)
    have hqsum : ((sortDescBy ColorAggEntry.quantity (colorAgg colorMap rows)).map
        ColorAggEntry.quantity).sum = totalPieces colorMap rows := by
      rw [(hperm.map ColorAggEntry.quantity).sum_eq, htot']
    have hnil : sortDescBy ColorAggEntry.quantity (colorAgg colorMap rows) ≠ [] := by
      intro hnilEq
      rw [hnilEq] at hqsum
      simp at hqsum
      omega
    constructor
    · obtain ⟨s, hs, hcum⟩ :=
        colorStatsAux_last (totalPieces colorMap rows)
          (sortDescBy ColorAggEntry.quantity (colorAgg colorMap rows)) 0 0 hnil
      refine ⟨s, hs, ?_⟩
      rw [hcum]
      rw [Nat.zero_add, hqsum]
      rw [jsPct, if_neg hne0, div_self (Nat.cast_ne_zero.mpr hne0), one_mul,
        round4_hundred]
    · have hper := colorStatsAux_percents (totalPieces colorMap rows) hne0 0 0
        (sortDescBy ColorAggEntry.quantity (colorAgg colorMap rows))
      have hcomp : (sortDescBy ColorAggEntry.quantity (colorAgg colorMap rows)).map
          (fun c => round4 ((c.quantity : ℚ) / (totalPieces colorMap rows : ℚ) * 100))
          = ((sortDescBy ColorAggEntry.quantity (colorAgg colorMap rows)).map
              ColorAggEntry.quantity).map
            (fun q : ℕ => round4 ((q : ℚ) / (totalPieces colorMap rows : ℚ) * 100)) := by
        rw [List.map_map]
        rfl
      have hlen : (colorStats colorMap rows).length
          = ((sortDescBy ColorAggEntry.quantity (colorAgg colorMap rows)).map
              ColorAggEntry.quantity).length := by
        rw [List.length_map]
        exact colorStatsAux_length _ 0 0 _
      calc |((colorStats colorMap rows).map (fun s => s.percent.getD 0)).sum - 100|
          = |((((sortDescBy ColorAggEntry.quantity (colorAgg colorMap rows)).map
                ColorAggEntry.quantity).map
              (fun q : ℕ => round4 ((q : ℚ) / (totalPieces colorMap rows : ℚ) * 100))).sum
              - 100)| := by rw [colorStats, hper, hcomp]
        _ ≤ (((sortDescBy ColorAggEntry.quantity (colorAgg colorMap rows)).map
                ColorAggEntry.quantity).length : ℚ) * (1 / 20000) :=
            sum_map_round4_pct_abs_le _ hne0 _ hqsum
        _ = ((colorStats colorMap rows).length : ℚ) * (1 / 20000) := by rw [hlen]
  · intro htot
    have hne0 : totalPartsQuantity rows ≠ 0 := Nat.pos_iff_ne_zero.mp htot
    have hqsum : ((sortDescBy PartAggEntry.quantity (partAgg rows)).map
        PartAggEntry.quantity).sum = totalPartsQuantity rows := by
      rw [totalPartsQuantity, foldl_add_eq]
      simp
    have hnil : sortDescBy PartAggEntry.quantity (partAgg rows) ≠ [] := by
      intro hnilEq
      rw [hnilEq] at hqsum
      simp at hqsum
      omega
    constructor
    · obtain ⟨s, hs, hcum⟩ :=
        partFrequencyAux_last partMap (totalPartsQuantity rows)
          (sortDescBy PartAggEntry.quantity (partAgg rows)) 0 0 hnil
      refine ⟨s, hs, ?_⟩
      rw [hcum]
      rw [Nat.zero_add, hqsum]
      rw [jsPct, if_neg hne0, div_self (Nat.cast_ne_zero.mpr hne0), one_mul,
        round4_hundred]
    · have hper := partFrequencyAux_percents partMap (totalPartsQuantity rows) hne0 0 0
        (sortDescBy PartAggEntry.quantity (partAgg rows))
      have hcomp : (sortDescBy PartAggEntry.quantity (partAgg rows)).map
          (fun p => round4 ((p.quantity : ℚ) / (totalPartsQuantity rows : ℚ) * 100))
          = ((sortDescBy PartAggEntry.quantity (partAgg rows)).map
              PartAggEntry.quantity).map
            (fun q : ℕ => round4 ((q : ℚ) / (totalPartsQuantity rows : ℚ) * 100)) := by
        rw [List.map_map]
        rfl
      have hlen : (partFrequency partMap rows).length
          = ((sortDescBy PartAggEntry.quantity (partAgg rows)).map
              PartAggEntry.quantity).length := by
        rw [List.length_map]
        exact partFrequencyAux_length _ _ 0 0 _
      calc |((partFrequency partMap rows).map (fun p => p.percent.getD 0)).sum - 100|
          = |((((sortDescBy PartAggEntry.quantity (partAgg rows)).map
                PartAggEntry.quantity).map
              (fun q : ℕ => round4 ((q : ℚ) / (totalPartsQuantity rows : ℚ) * 100))).sum
              - 100)| := by rw [partFrequency, hper, hcomp]
        _ ≤ (((sortDescBy PartAggEntry.quantity (partAgg rows)).map
                PartAggEntry.quantity).length : ℚ) * (1 / 20000) :=
            sum_map_round4_pct_abs_le _ hne0 _ hqsum
        _ = ((partFrequency partMap rows).length : ℚ) * (1 / 20000) := by rw [hlen]

unseal Rat.add Rat.mul Rat.inv Rat.sub in
/-- Witness for C1 (amended), on a one-row input: the single color and the
single part each get percent 100, the sum deviates from 100 by at most
1 * 0.00005, and the last cumulative percent is exactly 100. -/
theorem aggregatePercentSums_witness :
    (0 < totalPieces [(0, ⟨0, 5, 7⟩)] [⟨0, 0, 0, 1, none⟩])
    ∧ ((∃ s, (colorStats [(0, ⟨0, 5, 7⟩)] [⟨0, 0, 0, 1, none⟩]).getLast? = some s
        ∧ s.cumulative_percent = some 100)
      ∧ |((colorStats [(0, ⟨0, 5, 7⟩)] [⟨0, 0, 0, 1, none⟩]).map
            (fun s => s.percent.getD 0)).sum - 100|
          ≤ ((colorStats [(0, ⟨0, 5, 7⟩)] [⟨0, 0, 0, 1, none⟩]).length : ℚ) * (1 / 20000))
    ∧ (0 < totalPartsQuantity [⟨0, 0, 0, 1, none⟩])
    ∧ ((∃ p, (partFrequency [] [⟨0, 0, 0, 1, none⟩]).getLast? = some p
        ∧ p.cumulative_percent = some 100)
      ∧ |((partFrequency [] [⟨0, 0, 0, 1, none⟩]).map
            (fun p => p.percent.getD 0)).sum - 100|
          ≤ ((partFrequency [] [⟨0, 0, 0, 1, none⟩]).length : ℚ) * (1 / 20000)) :=
  ⟨by decide,
    (aggregatePercentSums [(0, ⟨0, 5, 7⟩)] [] [⟨0, 0, 0, 1, none⟩]).1 (by decide),
    by decide,
    (aggregatePercentSums [(0, ⟨0, 5, 7⟩)] [] [⟨0, 0, 0, 1, none⟩]).2 (by decide)⟩

/-- Counterexample input for the original claim C1: one part with quantity
2999 and 201 distinct parts with quantity 1 (grand total 3200). -/
def c1Rows : List InventoryPartRow :=
  ⟨0, 0, 0, 2999, none⟩ :: (List.range 201).map (fun i => ⟨0, i + 1, 0, 1, none⟩)

set_option maxRecDepth 10000 in
unseal Rat.add Rat.mul Rat.inv Rat.sub in
/-- Counterexample to C1 as stated: for this 202-item part aggregation with
positive grand total 3200, each unit part rounds 0.03125% up to 0.0313% and
the large part rounds 93.71875% up to 93.7188%, so the percent values sum
to 100.0101, which is not within 0.01 of 100. -/
theorem aggregatePercentSums_cex :
    ¬ (|((partFrequency [] c1Rows).map (fun s => s.percent.getD 0)).sum - 100|
        ≤ 1 / 100) := by
  decide

/-! ## Zero grand total (claim C5) -/

/-- Claim C5 evaluated at the failing input: a single inventory-part row
whose quantity field was unparsable (hence parsed to 0) and whose color id
resolves.  The all-time color aggregation then has grand total 0 but is
non-empty, and the emitted item's `percent` and `cumulative_percent` are
NaN (modelled as `none`), which reaches the output JSON — contradicting
the claim that zero-grand-total aggregations emit only empty or
zero-valued structures with no NaN. -/
theorem zeroTotalEmitsNaN :
    totalPieces [(0, ⟨0, 2, 3⟩)] [⟨0, 0, 0, 0, none⟩] = 0
    ∧ (colorStats [(0, ⟨0, 2, 3⟩)] [⟨0, 0, 0, 0, none⟩]).map
        (fun s => (s.percent, s.cumulative_percent)) = [(none, none)] := by
  constructor
  · rfl
  · rfl

/-! ## Part aggregation keeps unresolvable part ids (claims C6, C7) -/

/-- Quantity recorded in the part aggregation map for the first entry with
the given part number (0 when absent). -/
def partAggQty : List PartAggEntry → ℕ → ℕ
  | [], _ => 0
  | e :: rest, k => if e.part_num = k then e.quantity else partAggQty rest k

theorem partBump_qty_self (ip : InventoryPartRow) :
    ∀ (m : List PartAggEntry),
      partAggQty (partBump ip m) ip.part_num
        = partAggQty m ip.part_num + ip.quantity
  | [] => by simp [partBump, partAggQty]
  | e :: rest => by
    by_cases h : e.part_num = ip.part_num
    · simp [partBump, partAggQty, h]
    · simp [partBump, partAggQty, h, partBump_qty_self ip rest]

theorem partBump_key_mem (ip : InventoryPartRow) :
    ∀ (m : List PartAggEntry), ∃ a ∈ partBump ip m, a.part_num = ip.part_num
  | [] => ⟨⟨ip.part_num, ip.quantity, ip.img_url⟩, by simp [partBump]⟩
  | e :: rest => by
    by_cases h : e.part_num = ip.part_num
    · refine ⟨{ e with
          quantity := e.quantity + ip.quantity,
          img_url := if ip.img_url.isSome ∧ e.img_url = none then ip.img_url
            else e.img_url }, ?_, ?_⟩
      · simp [partBump, h]
      · simpa using h
    · obtain ⟨a, ha, hk⟩ := partBump_key_mem ip rest
      exact ⟨a, by simp [partBump, h, ha], hk⟩

theorem partBump_key_preserved (ip : InventoryPartRow) (k : ℕ) :
    ∀ (m : List PartAggEntry), (∃ a ∈ m, a.part_num = k) →
      ∃ a ∈ partBump ip m, a.part_num = k
  | [], h => by simp at h
  | e :: rest, h => by
    by_cases he : e.part_num = ip.part_num
    · obtain ⟨a, ha, hk⟩ := h
      rcases List.mem_cons.mp ha with rfl | ha'
      · refine ⟨{ a with
            quantity := a.quantity + ip.quantity,
            img_url := if ip.img_url.isSome ∧ a.img_url = none then ip.img_url
              else a.img_url }, ?_, ?_⟩
        · simp [partBump, he]
        · simpa using hk
      · exact ⟨a, by simp [partBump, he, ha'], hk⟩
    · obtain ⟨a, ha, hk⟩ := h
      rcases List.mem_cons.mp ha with rfl | ha'
      · exact ⟨a, by simp [partBump, he], hk⟩
      · obtain ⟨a', ha', hk'⟩ := partBump_key_preserved ip k rest ⟨a, ha', hk⟩
        exact ⟨a', by simp [partBump, he, ha'], hk'⟩

theorem partAgg_foldl_key_mem (k : ℕ) :
    ∀ (rows : List InventoryPartRow) (m : List PartAggEntry),
      ((∃ a ∈ m, a.part_num = k) ∨ (∃ ip ∈ rows, ip.part_num = k)) →
      ∃ a ∈ rows.foldl (fun m ip => partBump ip m) m, a.part_num = k
  | [], m, h => by
    rcases h with h | h
    · exact h
    · simp at h
  | r :: rows, m, h => by
    rcases h with h | h
    · exact partAgg_foldl_key_mem k rows (partBump r m)
        (Or.inl (partBump_key_preserved r k m h))
    · obtain ⟨ip, hip, hk⟩ := h
      rcases List.mem_cons.mp hip with rfl | hmem
      · refine partAgg_foldl_key_mem k rows (partBump ip m) (Or.inl ?_)
        rw [← hk]
        exact partBump_key_mem ip m
      · exact partAgg_foldl_key_mem k rows (partBump r m) (Or.inr ⟨ip, hmem, hk⟩)

theorem partAgg_key_mem (rows : List InventoryPartRow) (ip : InventoryPartRow)
    (hip : ip ∈ rows) : ∃ a ∈ partAgg rows, a.part_num = ip.part_num :=
  partAgg_foldl_key_mem ip.part_num rows [] (Or.inr ⟨ip, hip, rfl⟩)

theorem partAggQty_first_mem (k : ℕ) :
    ∀ (m : List PartAggEntry), (∃ a ∈ m, a.part_num = k) →
      ∃ a ∈ m, a.part_num = k ∧ a.quantity = partAggQty m k
  | [], h => by simp at h
  | e :: rest, h => by
    by_cases he : e.part_num = k
    · exact ⟨e, by simp, he, by simp [partAggQty, he]⟩
    · obtain ⟨a, ha, hk⟩ := h
      rcases List.mem_cons.mp ha with rfl | ha'
      · exact absurd hk he
      · obtain ⟨a', ha', hk', hq'⟩ := partAggQty_first_mem k rest ⟨a, ha', hk⟩
        exact ⟨a', by simp [ha'], hk', by simp [partAggQty, he, hq']⟩

theorem partFrequencyAux_proj (partMap : List (ℕ × Part)) (total : ℕ) :
    ∀ (cum idx : ℕ) (l : List PartAggEntry),
      (partFrequencyAux partMap total cum idx l).map
          (fun e => (e.part_num, e.name, e.quantity))
        = l.map (fun a => (a.part_num, partNameOf partMap a.part_num, a.quantity))
  | _, _, [] => rfl
  | cum, idx, p :: rest => by
    simp [partFrequencyAux,
      partFrequencyAux_proj partMap total (cum + p.quantity) (idx + 1) rest]

theorem partFrequency_field_mem (partMap : List (ℕ × Part))
    (rows : List InventoryPartRow) (a : PartAggEntry)
    (ha : a ∈ partAgg rows) :
    ∃ e ∈ partFrequency partMap rows,
      e.part_num = a.part_num ∧ e.name = partNameOf partMap a.part_num
        ∧ e.quantity = a.quantity := by
  have hmem : a ∈ sortDescBy PartAggEntry.quantity (partAgg rows) :=
    (sortDescBy_perm PartAggEntry.quantity (partAgg rows)).mem_iff.mpr ha
  have hproj := partFrequencyAux_proj partMap (totalPartsQuantity rows) 0 0
    (sortDescBy PartAggEntry.quantity (partAgg rows))
  have himg : (a.part_num, partNameOf partMap a.part_num, a.quantity)
      ∈ (partFrequency partMap rows).map (fun e => (e.part_num, e.name, e.quantity)) := by
    rw [partFrequency, hproj]
    exact List.mem_map_of_mem _ hmem
  obtain ⟨e, he, heq⟩ := List.mem_map.mp himg
  refine ⟨e, he, ?_, ?_, ?_⟩
  · exact congrArg Prod.fst heq
  · exact congrArg (Prod.fst ∘ Prod.snd) heq
  · exact congrArg (Prod.snd ∘ Prod.snd) heq

unseal Rat.add Rat.mul Rat.inv Rat.sub in
/-- Counterexample to C6 as stated: a single row whose part id 5 is absent
from the (empty) part reference map is NOT skipped — the part-frequency
output contains the entry derived from that row, with the "Unknown"
fallback name. -/
theorem partUnknownKept_cex :
    partFrequency [] [⟨0, 5, 0, 3, none⟩]
      = [⟨5, unknownName, 3, none, 1, some 100, some 100⟩] := by
  decide

/-- Claim C6 (amended): rows whose referenced part id is not found in the
part reference map are NOT skipped by the Part Aggregator — in contrast to
the lenient-join skip applied to unresolvable color ids.  Every row
contributes an entry keyed by its part number to the part-frequency
output, and when the part id is unresolvable that entry carries the
"Unknown" fallback display name. -/
theorem partUnknownKept (partMap : List (ℕ × Part))
    (rows : List InventoryPartRow) (ip : InventoryPartRow) (hip : ip ∈ rows) :
    ∃ e ∈ partFrequency partMap rows,
      e.part_num = ip.part_num
      ∧ (mapGet partMap ip.part_num = none → e.name = unknownName) := by
  obtain ⟨a, ha, hk⟩ := partAgg_key_mem rows ip hip
  obtain ⟨e, he, h1, h2, _⟩ := partFrequency_field_mem partMap rows a ha
  refine ⟨e, he, h1.trans hk, ?_⟩
  intro hnone
  rw [h2, hk]
  simp [partNameOf, hnone]

/-- Witness for C6 (amended): the single row with unresolvable part id 5
yields an output entry with that part number and the "Unknown" name. -/
theorem partUnknownKept_witness :
    ∃ e ∈ partFrequency [] [⟨0, 5, 0, 3, none⟩],
      e.part_num = (⟨0, 5, 0, 3, none⟩ : InventoryPartRow).part_num
      ∧ (mapGet ([] : List (ℕ × Part))
            (⟨0, 5, 0, 3, none⟩ : InventoryPartRow).part_num = none →
          e.name = unknownName) :=
  partUnknownKept [] [⟨0, 5, 0, 3, none⟩] ⟨0, 5, 0, 3, none⟩ (by simp)

/-- Claim C7: a row whose color id is absent from the color reference map
is entirely excluded from the color-stats aggregation — appending it to
the input leaves `colorStats` unchanged — while its quantity still
contributes to the part-frequency aggregation: the aggregated quantity for
its part number grows by exactly the row's quantity, and the part-frequency
output contains an entry with that part number and quantity. -/
theorem lenientColorJoin (colorMap : List (ℕ × Color))
    (partMap : List (ℕ × Part)) (rows : List InventoryPartRow)
    (ip : InventoryPartRow) (hmiss : mapGet colorMap ip.color_id = none) :
    colorStats colorMap (rows ++ [ip]) = colorStats colorMap rows
    ∧ partAggQty (partAgg (rows ++ [ip])) ip.part_num
        = partAggQty (partAgg rows) ip.part_num + ip.quantity
    ∧ ∃ e ∈ partFrequency partMap (rows ++ [ip]),
        e.part_num = ip.part_num
        ∧ e.quantity = partAggQty (partAgg rows) ip.part_num + ip.quantity := by
  have hca : colorAgg colorMap (rows ++ [ip]) = colorAgg colorMap rows := by
    rw [colorAgg, List.foldl_append]
    simp [colorAggStep, hmiss]
    rfl
  have hpa : partAgg (rows ++ [ip]) = partBump ip (partAgg rows) := by
    rw [partAgg, List.foldl_append]
    rfl
  refine ⟨?_, ?_, ?_⟩
  · simp only [colorStats, totalPieces, hca]
  · rw [hpa, partBump_qty_self]
  · have hkey : ∃ a ∈ partAgg (rows ++ [ip]), a.part_num = ip.part_num :=
      partAgg_key_mem _ ip (by simp)
    obtain ⟨a, ha, hk, hq⟩ :=
      partAggQty_first_mem ip.part_num (partAgg (rows ++ [ip])) hkey
    obtain ⟨e, he, h1, _, h3⟩ := partFrequency_field_mem partMap (rows ++ [ip]) a ha
    refine ⟨e, he, h1.trans hk, ?_⟩
    rw [h3, hq, hpa, partBump_qty_self]

/-- Witness for C7: with an empty color map, the single-row input is
excluded from color stats but contributes quantity 4 to the part-frequency
entry for part 7. -/
theorem lenientColorJoin_witness :
    colorStats [] ([] ++ [(⟨0, 7, 9, 4, none⟩ : InventoryPartRow)]) = colorStats [] []
    ∧ partAggQty (partAgg ([] ++ [(⟨0, 7, 9, 4, none⟩ : InventoryPartRow)]))
        (⟨0, 7, 9, 4, none⟩ : InventoryPartRow).part_num
        = partAggQty (partAgg []) (⟨0, 7, 9, 4, none⟩ : InventoryPartRow).part_num
          + (⟨0, 7, 9, 4, none⟩ : InventoryPartRow).quantity
    ∧ ∃ e ∈ partFrequency [] ([] ++ [(⟨0, 7, 9, 4, none⟩ : InventoryPartRow)]),
        e.part_num = (⟨0, 7, 9, 4, none⟩ : InventoryPartRow).part_num
        ∧ e.quantity
            = partAggQty (partAgg []) (⟨0, 7, 9, 4, none⟩ : InventoryPartRow).part_num
              + (⟨0, 7, 9, 4, none⟩ : InventoryPartRow).quantity :=
  lenientColorJoin [] [] [] ⟨0, 7, 9, 4, none⟩ rfl

/-! ## Year trends (`yearAgg` / `inventoryYearTrends` / `setsOnlyYearTrends`) -/

/-- Per-year accumulator of the inventory-based year aggregation. -/
structure YearData where
  pieces : ℕ
  sets : List ℕ
  colors : List (ℕ × ℕ)
  parts : List (ℕ × ℕ)
deriving DecidableEq, Repr

/-- JS `Set.prototype.add` on an insertion-ordered deduplicated list. -/
def addToSet (l : List ℕ) (x : ℕ) : List ℕ := if x ∈ l then l else l ++ [x]

/-- Model of `map.set(k, (map.get(k) || 0) + qty)` on a quantity map. -/
def bumpCount : List (ℕ × ℕ) → ℕ → ℕ → List (ℕ × ℕ)
  | [], k, qty => [(k, qty)]
  | (k', v) :: rest, k, qty =>
    if k' = k then (k, v + qty) :: rest else (k', v) :: bumpCount rest k qty

/-- Resolution of a row to its set number and set record via the
inventory-to-set and set maps (`none` when either link is missing). -/
def resolveRow (invMap : List (ℕ × ℕ)) (setMap : List (ℕ × SetRec))
    (ip : InventoryPartRow) : Option (ℕ × SetRec) :=
  match mapGet invMap ip.inventory_id with
  | none => none
  | some setNum =>
    match mapGet setMap setNum with
    | none => none
    | some s => some (setNum, s)

/-- The release year a row resolves to (`none` when a join link is missing
or the set's year is NaN). -/
def resolveSetYear (invMap : List (ℕ × ℕ)) (setMap : List (ℕ × SetRec))
    (ip : InventoryPartRow) : Option ℤ :=
  match resolveRow invMap setMap ip with
  | none => none
  | some (_, s) => s.year

/-- The year under which the year-trend aggregation files a row: the
resolved year, filtered by the 1949 domain floor. -/
def rowTrendYear (invMap : List (ℕ × ℕ)) (setMap : List (ℕ × SetRec))
    (ip : InventoryPartRow) : Option ℤ :=
  match resolveSetYear invMap setMap ip with
  | none => none
  | some y => if y < 1949 then none else some y

/-- The per-row mutation of one year bucket: add pieces, record the set
number, and track per-color (when the color resolves) and per-part
quantities. -/
def yearApply (colorMap : List (ℕ × Color)) (setNum : ℕ)
    (ip : InventoryPartRow) (d : YearData) : YearData :=
  { pieces := d.pieces + ip.quantity
    sets := addToSet d.sets setNum
    colors :=
      match mapGet colorMap ip.color_id with
      | none => d.colors
      | some c => bumpCount d.colors c.id ip.quantity
    parts := bumpCount d.parts ip.part_num ip.quantity }

/-- Find-or-create of the year bucket inside the `yearAgg` map. -/
def yearUpdate (colorMap : List (ℕ × Color)) (setNum : ℕ)
    (ip : InventoryPartRow) (year : ℤ) :
    List (ℤ × YearData) → List (ℤ × YearData)
  | [] => [(year, yearApply colorMap setNum ip ⟨0, [], [], []⟩)]
  | (y, d) :: rest =>
    if y = year then (y, yearApply colorMap setNum ip d) :: rest
    else (y, d) :: yearUpdate colorMap setNum ip year rest

/-- One iteration of the year-trend loop: skip on a broken join link, a
NaN year, or a year below 1949. -/
def yearAggStep (colorMap : List (ℕ × Color)) (invMap : List (ℕ × ℕ))
    (setMap : List (ℕ × SetRec)) (m : List (ℤ × YearData))
    (ip : InventoryPartRow) : List (ℤ × YearData) :=
  match resolveRow invMap setMap ip with
  | none => m
  | some (setNum, s) =>
    match s.year with
    | none => m
    | some year => if year < 1949 then m else yearUpdate colorMap setNum ip year m

/-- The `yearAgg` map after scanning all inventory-part rows. -/
def yearAgg (colorMap : List (ℕ × Color)) (invMap : List (ℕ × ℕ))
    (setMap : List (ℕ × SetRec)) (rows : List InventoryPartRow) :
    List (ℤ × YearData) :=
  rows.foldl (yearAggStep colorMap invMap setMap) []

/-- The `top color / top part` scan: argmax by strictly greater accumulated
quantity, starting from the empty string with quantity 0. -/
def topKey (entries : List (ℕ × ℕ)) : ℕ × ℕ :=
  entries.foldl (fun best e => if best.2 < e.2 then e else best) (emptyStr, 0)

/-- The `data_source` tag of a year trend row. -/
inductive DataSource
  | inventory
  | sets_only
deriving DecidableEq, Repr

/-- Output item of `year-trends.json`.  String-or-null fields are `Option`;
in `sets_only` rows the detail fields are null. -/
structure YearTrend where
  year : ℤ
  total_pieces : ℕ
  total_sets : ℕ
  avg_pieces_per_set : Option ℤ
  unique_colors : Option ℕ
  unique_parts : Option ℕ
  top_color : Option ℕ
  top_color_hex : Option ℕ
  top_part : Option ℕ
  top_part_name : Option ℕ
  data_source : DataSource
deriving DecidableEq, Repr

/-- Model of `Math.round(pieces / sets) || 0`: with a zero set count the
division yields NaN (for 0 pieces, collapsed to 0 by `|| 0`) or Infinity
(modelled as `none`); otherwise round half towards positive infinity. -/
def jsAvgOr0 (pieces setsCount : ℕ) : Option ℤ :=
  if setsCount = 0 then (if pieces = 0 then some 0 else none)
  else some (Int.floor ((pieces : ℚ) / (setsCount : ℚ) + 1/2))

/-- The inventory-based year trends (`data_source = "inventory"`). -/
def inventoryYearTrends (colorMap : List (ℕ × Color)) (partMap : List (ℕ × Part))
    (invMap : List (ℕ × ℕ)) (setMap : List (ℕ × SetRec))
    (rows : List InventoryPartRow) : List YearTrend :=
  (yearAgg colorMap invMap setMap rows).map (fun e =>
    { year := e.1
      total_pieces := e.2.pieces
      total_sets := e.2.sets.length
      avg_pieces_per_set := jsAvgOr0 e.2.pieces e.2.sets.length
      unique_colors := some e.2.colors.length
      unique_parts := some e.2.parts.length
      top_color := some (match mapGet colorMap (topKey e.2.colors).1 with
        | some c => c.name
        | none => unknownName)
      top_color_hex := some (match mapGet colorMap (topKey e.2.colors).1 with
        | some c => c.rgb
        | none => 0)
      top_part := some (topKey e.2.parts).1
      top_part_name := some (partNameOf partMap (topKey e.2.parts).1)
      data_source := DataSource.inventory })

/-- The set of years covered by the inventory-based trends (JS
`new Set(inventoryYearTrends.map(t => t.year))`, as a list). -/
def inventoryYears (colorMap : List (ℕ × Color)) (partMap : List (ℕ × Part))
    (invMap : List (ℕ × ℕ)) (setMap : List (ℕ × SetRec))
    (rows : List InventoryPartRow) : List ℤ :=
  (inventoryYearTrends colorMap partMap invMap setMap rows).map YearTrend.year

/-- Per-year accumulator of the sets-only fallback aggregation. -/
structure SetsOnlyData where
  sets : List ℕ
  totalPieces : ℕ
deriving DecidableEq, Repr

/-- The per-set mutation of one sets-only year bucket. -/
def setsOnlyApply (s : SetRec) (d : SetsOnlyData) : SetsOnlyData :=
  ⟨addToSet d.sets s.set_num, d.totalPieces + s.num_parts⟩

/-- The year under which the sets-only aggregation files a set record:
its parsed year, filtered by the 1949 floor and by the years already
covered by inventory data. -/
def setsOnlyKeep (invYears : List ℤ) (s : SetRec) : Option ℤ :=
  match s.year with
  | none => none
  | some y => if y < 1949 then none else if y ∈ invYears then none else some y

/-- Find-or-create of the year bucket inside the sets-only map. -/
def setsOnlyUpdate (s : SetRec) (year : ℤ) :
    List (ℤ × SetsOnlyData) → List (ℤ × SetsOnlyData)
  | [] => [(year, setsOnlyApply s ⟨[], 0⟩)]
  | (y, d) :: rest =>
    if y = year then (y, setsOnlyApply s d) :: rest
    else (y, d) :: setsOnlyUpdate s year rest

/-- One iteration of the sets-only loop. -/
def setsOnlyAggStep (invYears : List ℤ) (m : List (ℤ × SetsOnlyData))
    (s : SetRec) : List (ℤ × SetsOnlyData) :=
  match setsOnlyKeep invYears s with
  | none => m
  | some year => setsOnlyUpdate s year m

/-- The sets-only year aggregation over the raw sets table. -/
def setsOnlyYearAgg (invYears : List ℤ) (sets : List SetRec) :
    List (ℤ × SetsOnlyData) :=
  sets.foldl (setsOnlyAggStep invYears) []

/-- The sets-only year trends (`data_source = "sets_only"`, null detail
fields). -/
def setsOnlyYearTrends (colorMap : List (ℕ × Color)) (partMap : List (ℕ × Part))
    (invMap : List (ℕ × ℕ)) (setMap : List (ℕ × SetRec))
    (rows : List InventoryPartRow) (sets : List SetRec) : List YearTrend :=
  (setsOnlyYearAgg (inventoryYears colorMap partMap invMap setMap rows) sets).map
    (fun e =>
      { year := e.1
        total_pieces := e.2.totalPieces
        total_sets := e.2.sets.length
        avg_pieces_per_set := jsAvgOr0 e.2.totalPieces e.2.sets.length
        unique_colors := none
        unique_parts := none
        top_color := none
        top_color_hex := none
        top_part := none
        top_part_name := none
        data_source := DataSource.sets_only })

/-- The combined `year-trends.json` array, most recent year first. -/
def yearTrends (colorMap : List (ℕ × Color)) (partMap : List (ℕ × Part))
    (invMap : List (ℕ × ℕ)) (setMap : List (ℕ × SetRec))
    (rows : List InventoryPartRow) (sets : List SetRec) : List YearTrend :=
  sortDescBy YearTrend.year
    (inventoryYearTrends colorMap partMap invMap setMap rows
      ++ setsOnlyYearTrends colorMap partMap invMap setMap rows sets)

/-! ## Year-split lemmas (claims C4, C10) -/

theorem mem_map_fst {α β : Type} (l : List (α × β)) (y : α) :
    y ∈ l.map Prod.fst ↔ ∃ d, (y, d) ∈ l := by
  constructor
  · intro h
    obtain ⟨p, hp, heq⟩ := List.mem_map.mp h
    exact ⟨p.2, by rw [show (y, p.2) = p from Prod.ext heq.symm rfl]; exact hp⟩
  · rintro ⟨d, hd⟩
    exact List.mem_map.mpr ⟨(y, d), hd, rfl⟩

theorem yearUpdate_keys (colorMap : List (ℕ × Color)) (setNum : ℕ)
    (ip : InventoryPartRow) (year : ℤ) :
    ∀ (m : List (ℤ × YearData)),
      (yearUpdate colorMap setNum ip year m).map Prod.fst
        = if year ∈ m.map Prod.fst then m.map Prod.fst
          else m.map Prod.fst ++ [year]
  | [] => by simp [yearUpdate]
  | (y', d') :: rest => by
    by_cases h : y' = year
    · subst h
      simp [yearUpdate]
    · have ih := yearUpdate_keys colorMap setNum ip year rest
      by_cases hin : year ∈ rest.map Prod.fst
      · simp [yearUpdate, h, ih, hin, Ne.symm h]
      · simp [yearUpdate, h, ih, hin, Ne.symm h]

theorem yearUpdate_key_mem (colorMap : List (ℕ × Color)) (setNum : ℕ)
    (ip : InventoryPartRow) (year : ℤ) (y : ℤ) (m : List (ℤ × YearData)) :
    y ∈ (yearUpdate colorMap setNum ip year m).map Prod.fst
      ↔ (y = year ∨ y ∈ m.map Prod.fst) := by
  rw [yearUpdate_keys]
  by_cases hin : year ∈ m.map Prod.fst
  · rw [if_pos hin]
    constructor
    · exact Or.inr
    · rintro (rfl | h)
      · exact hin
      · exact h
  · rw [if_neg hin]
    simp [or_comm]

theorem yearAggStep_key (colorMap : List (ℕ × Color)) (invMap : List (ℕ × ℕ))
    (setMap : List (ℕ × SetRec)) (m : List (ℤ × YearData))
    (ip : InventoryPartRow) (y : ℤ) :
    y ∈ (yearAggStep colorMap invMap setMap m ip).map Prod.fst
      ↔ (rowTrendYear invMap setMap ip = some y ∨ y ∈ m.map Prod.fst) := by
  rcases hres : resolveRow invMap setMap ip with _ | ⟨setNum, s⟩
  · simp [yearAggStep, hres, rowTrendYear, resolveSetYear]
  · rcases hy : s.year with _ | year
    · simp [yearAggStep, hres, hy, rowTrendYear, resolveSetYear]
    · by_cases hlt : year < 1949
      · simp [yearAggStep, hres, hy, hlt, rowTrendYear, resolveSetYear]
      · simp only [yearAggStep, hres, hy, if_neg hlt, rowTrendYear, resolveSetYear,
          yearUpdate_key_mem, Option.some_inj]
        constructor
        · rintro (rfl | h)
          · exact Or.inl rfl
          · exact Or.inr h
        · rintro (h | h)
          · exact Or.inl h.symm
          · exact Or.inr h

theorem yearAgg_foldl_key (colorMap : List (ℕ × Color)) (invMap : List (ℕ × ℕ))
    (setMap : List (ℕ × SetRec)) (y : ℤ) :
    ∀ (rows : List InventoryPartRow) (m : List (ℤ × YearData)),
      y ∈ (rows.foldl (yearAggStep colorMap invMap setMap) m).map Prod.fst
        ↔ (y ∈ m.map Prod.fst ∨ ∃ ip ∈ rows, rowTrendYear invMap setMap ip = some y)
  | [], m => by simp
  | ip :: rows, m => by
    rw [List.foldl_cons, yearAgg_foldl_key colorMap invMap setMap y rows _,
      yearAggStep_key]
    constructor
    · rintro ((h | h) | ⟨ip', hip', h⟩)
      · exact Or.inr ⟨ip, by simp, h⟩
      · exact Or.inl h
      · exact Or.inr ⟨ip', by simp [hip'], h⟩
    · rintro (h | ⟨ip', hip', h⟩)
      · exact Or.inl (Or.inr h)
      · rcases List.mem_cons.mp hip' with rfl | hmem
        · exact Or.inl (Or.inl h)
        · exact Or.inr ⟨ip', hmem, h⟩

theorem inventoryYears_iff (colorMap : List (ℕ × Color)) (partMap : List (ℕ × Part))
    (invMap : List (ℕ × ℕ)) (setMap : List (ℕ × SetRec))
    (rows : List InventoryPartRow) (y : ℤ) :
    y ∈ inventoryYears colorMap partMap invMap setMap rows
      ↔ ∃ ip ∈ rows, rowTrendYear invMap setMap ip = some y := by
  have hmaps : inventoryYears colorMap partMap invMap setMap rows
      = (yearAgg colorMap invMap setMap rows).map Prod.fst := by
    rw [inventoryYears, inventoryYearTrends, List.map_map]
    rfl
  rw [hmaps, yearAgg, yearAgg_foldl_key]
  simp

theorem setsOnlyUpdate_keys (s : SetRec) (year : ℤ) :
    ∀ (m : List (ℤ × SetsOnlyData)),
      (setsOnlyUpdate s year m).map Prod.fst
        = if year ∈ m.map Prod.fst then m.map Prod.fst
          else m.map Prod.fst ++ [year]
  | [] => by simp [setsOnlyUpdate]
  | (y', d') :: rest => by
    by_cases h : y' = year
    · subst h
      simp [setsOnlyUpdate]
    · have ih := setsOnlyUpdate_keys s year rest
      by_cases hin : year ∈ rest.map Prod.fst
      · simp [setsOnlyUpdate, h, ih, hin, Ne.symm h]
      · simp [setsOnlyUpdate, h, ih, hin, Ne.symm h]

theorem setsOnlyUpdate_key_mem (s : SetRec) (year : ℤ) (y : ℤ)
    (m : List (ℤ × SetsOnlyData)) :
    y ∈ (setsOnlyUpdate s year m).map Prod.fst
      ↔ (y = year ∨ y ∈ m.map Prod.fst) := by
  rw [setsOnlyUpdate_keys]
  by_cases hin : year ∈ m.map Prod.fst
  · rw [if_pos hin]
    constructor
    · exact Or.inr
    · rintro (rfl | h)
      · exact hin
      · exact h
  · rw [if_neg hin]
    simp [or_comm]

theorem setsOnlyAggStep_key (invYears : List ℤ) (m : List (ℤ × SetsOnlyData))
    (s : SetRec) (y : ℤ) :
    y ∈ (setsOnlyAggStep invYears m s).map Prod.fst
      ↔ (setsOnlyKeep invYears s = some y ∨ y ∈ m.map Prod.fst) := by
  rcases hk : setsOnlyKeep invYears s with _ | year
  · simp [setsOnlyAggStep, hk]
  · simp only [setsOnlyAggStep, hk, setsOnlyUpdate_key_mem, Option.some_inj]
    constructor
    · rintro (rfl | h)
      · exact Or.inl rfl
      · exact Or.inr h
    · rintro (h | h)
      · exact Or.inl h.symm
      · exact Or.inr h

theorem setsOnly_foldl_key (invYears : List ℤ) (y : ℤ) :
    ∀ (sets : List SetRec) (m : List (ℤ × SetsOnlyData)),
      y ∈ (sets.foldl (setsOnlyAggStep invYears) m).map Prod.fst
        ↔ (y ∈ m.map Prod.fst ∨ ∃ s ∈ sets, setsOnlyKeep invYears s = some y)
  | [], m => by simp
  | s :: sets, m => by
    rw [List.foldl_cons, setsOnly_foldl_key invYears y sets _, setsOnlyAggStep_key]
    constructor
    · rintro ((h | h) | ⟨s', hs', h⟩)
      · exact Or.inr ⟨s, by simp, h⟩
      · exact Or.inl h
      · exact Or.inr ⟨s', by simp [hs'], h⟩
    · rintro (h | ⟨s', hs', h⟩)
      · exact Or.inl (Or.inr h)
      · rcases List.mem_cons.mp hs' with rfl | hmem
        · exact Or.inl (Or.inl h)
        · exact Or.inr ⟨s', hmem, h⟩

theorem setsOnlyYears_iff (colorMap : List (ℕ × Color)) (partMap : List (ℕ × Part))
    (invMap : List (ℕ × ℕ)) (setMap : List (ℕ × SetRec))
    (rows : List InventoryPartRow) (sets : List SetRec) (y : ℤ) :
    y ∈ (setsOnlyYearTrends colorMap partMap invMap setMap rows sets).map
        YearTrend.year
      ↔ ∃ s ∈ sets,
          setsOnlyKeep (inventoryYears colorMap partMap invMap setMap rows) s
            = some y := by
  have hmaps : (setsOnlyYearTrends colorMap partMap invMap setMap rows sets).map
      YearTrend.year
      = (setsOnlyYearAgg (inventoryYears colorMap partMap invMap setMap rows)
          sets).map Prod.fst := by
    rw [setsOnlyYearTrends, List.map_map]
    rfl
  rw [hmaps, setsOnlyYearAgg, setsOnly_foldl_key]
  simp

/-- Claim C4: every year appears in exactly one of the inventory-joined and
sets-only year-trend groups, never both; together the groups cover every
year at least 1949 that is present in either source (resolvable
inventory-part rows, or the raw sets table); and every sets-only row
carries null detail fields and the `sets_only` data-source tag. -/
theorem yearTrendSplit (colorMap : List (ℕ × Color)) (partMap : List (ℕ × Part))
    (invMap : List (ℕ × ℕ)) (setMap : List (ℕ × SetRec))
    (rows : List InventoryPartRow) (sets : List SetRec) :
    (∀ y : ℤ,
      ¬ (y ∈ (inventoryYearTrends colorMap partMap invMap setMap rows).map
            YearTrend.year
        ∧ y ∈ (setsOnlyYearTrends colorMap partMap invMap setMap rows sets).map
            YearTrend.year))
    ∧ (∀ y : ℤ, 1949 ≤ y →
        ((∃ ip ∈ rows, resolveSetYear invMap setMap ip = some y)
          ∨ (∃ s ∈ sets, s.year = some y)) →
        (y ∈ (inventoryYearTrends colorMap partMap invMap setMap rows).map
            YearTrend.year
          ∨ y ∈ (setsOnlyYearTrends colorMap partMap invMap setMap rows sets).map
              YearTrend.year))
    ∧ (∀ t ∈ setsOnlyYearTrends colorMap partMap invMap setMap rows sets,
        t.unique_colors = none ∧ t.unique_parts = none ∧ t.top_color = none
          ∧ t.top_color_hex = none ∧ t.top_part = none ∧ t.top_part_name = none
          ∧ t.data_source = DataSource.sets_only) := by
  refine ⟨?_, ?_, ?_⟩
  · rintro y ⟨hinv, hso⟩
    obtain ⟨s, _, hs⟩ :=
      (setsOnlyYears_iff colorMap partMap invMap setMap rows sets y).mp hso
    rw [setsOnlyKeep] at hs
    rcases hy : s.year with _ | y'
    · rw [hy] at hs
      simp at hs
    · rw [hy] at hs
      by_cases hlt : y' < 1949
      · simp [hlt] at hs
      · by_cases hin : y' ∈ inventoryYears colorMap partMap invMap setMap rows
        · simp [hlt, hin] at hs
        · simp only [hlt, if_neg, hin, if_false, Option.some_inj] at hs
          subst hs
          exact hin hinv
  · intro y hge hsrc
    rcases hsrc with ⟨ip, hip, hres⟩ | ⟨s, hs, hy⟩
    · left
      refine (inventoryYears_iff colorMap partMap invMap setMap rows y).mpr ?_
      refine ⟨ip, hip, ?_⟩
      rw [rowTrendYear, hres]
      simp [not_lt.mpr hge]
    · by_cases hin : y ∈ inventoryYears colorMap partMap invMap setMap rows
      · exact Or.inl hin
      · right
        refine (setsOnlyYears_iff colorMap partMap invMap setMap rows sets y).mpr ?_
        refine ⟨s, hs, ?_⟩
        rw [setsOnlyKeep, hy]
        have : ¬ y < 1949 := not_lt.mpr hge
        simp [this, hin]
  · intro t ht
    rw [setsOnlyYearTrends] at ht
    obtain ⟨e, _, heq⟩ := List.mem_map.mp ht
    subst heq
    exact ⟨rfl, rfl, rfl, rfl, rfl, rfl, rfl⟩

/-- Witness for C4, on a one-row, one-set input: year 2000 is present in
the inventory source and lands in one of the two output groups. -/
theorem yearTrendSplit_witness :
    (2000 : ℤ) ∈ (inventoryYearTrends [] [] [(0, 0)] [(0, ⟨0, some 2000, 10⟩)]
        [⟨0, 1, 2, 3, none⟩]).map YearTrend.year
    ∨ (2000 : ℤ) ∈ (setsOnlyYearTrends [] [] [(0, 0)] [(0, ⟨0, some 2000, 10⟩)]
        [⟨0, 1, 2, 3, none⟩] [⟨5, some 1960, 20⟩]).map YearTrend.year :=
  (yearTrendSplit [] [] [(0, 0)] [(0, ⟨0, some 2000, 10⟩)] [⟨0, 1, 2, 3, none⟩]
      [⟨5, some 1960, 20⟩]).2.1 2000 (by decide)
    (Or.inl ⟨⟨0, 1, 2, 3, none⟩, by simp, by decide⟩)

/-! ## Set counts are positive (claim C10) -/

theorem addToSet_ne_nil (l : List ℕ) (x : ℕ) : addToSet l x ≠ [] := by
  by_cases hx : x ∈ l
  · rw [addToSet, if_pos hx]
    exact List.ne_nil_of_mem hx
  · rw [addToSet, if_neg hx]
    simp

theorem yearUpdate_sets_ne_nil (colorMap : List (ℕ × Color)) (setNum : ℕ)
    (ip : InventoryPartRow) (year : ℤ) :
    ∀ (m : List (ℤ × YearData)), (∀ e ∈ m, e.2.sets ≠ []) →
      ∀ e ∈ yearUpdate colorMap setNum ip year m, e.2.sets ≠ []
  | [], _ => by
    intro e he
    simp only [yearUpdate, List.mem_singleton] at he
    subst he
    exact addToSet_ne_nil [] setNum
  | (y', d') :: rest, hm => by
    intro e he
    by_cases h : y' = year
    · subst h
      simp [yearUpdate] at he
      rcases he with rfl | he
      · exact addToSet_ne_nil d'.sets setNum
      · exact hm _ (List.mem_cons_of_mem _ he)
    · simp [yearUpdate, h] at he
      rcases he with rfl | he
      · exact hm _ (by simp)
      · exact yearUpdate_sets_ne_nil colorMap setNum ip year rest
          (fun e' he' => hm _ (List.mem_cons_of_mem _ he')) e he

theorem yearAgg_foldl_sets_ne_nil (colorMap : List (ℕ × Color))
    (invMap : List (ℕ × ℕ)) (setMap : List (ℕ × SetRec)) :
    ∀ (rows : List InventoryPartRow) (m : List (ℤ × YearData)),
      (∀ e ∈ m, e.2.sets ≠ []) →
      ∀ e ∈ rows.foldl (yearAggStep colorMap invMap setMap) m, e.2.sets ≠ []
  | [], _, hm => hm
  | ip :: rows, m, hm => by
    refine yearAgg_foldl_sets_ne_nil colorMap invMap setMap rows _ ?_
    intro e he
    rcases hres : resolveRow invMap setMap ip with _ | ⟨setNum, s⟩
    · simp only [yearAggStep, hres] at he
      exact hm e he
    · rcases hy : s.year with _ | year
      · simp only [yearAggStep, hres, hy] at he
        exact hm e he
      · by_cases hlt : year < 1949
        · simp only [yearAggStep, hres, hy, if_pos hlt] at he
          exact hm e he
        · simp only [yearAggStep, hres, hy, if_neg hlt] at he
          exact yearUpdate_sets_ne_nil colorMap setNum ip year m hm e he

theorem setsOnlyUpdate_sets_ne_nil (s : SetRec) (year : ℤ) :
    ∀ (m : List (ℤ × SetsOnlyData)), (∀ e ∈ m, e.2.sets ≠ []) →
      ∀ e ∈ setsOnlyUpdate s year m, e.2.sets ≠ []
  | [], _ => by
    intro e he
    simp only [setsOnlyUpdate, List.mem_singleton] at he
    subst he
    exact addToSet_ne_nil [] s.set_num
  | (y', d') :: rest, hm => by
    intro e he
    by_cases h : y' = year
    · subst h
      simp [setsOnlyUpdate] at he
      rcases he with rfl | he
      · exact addToSet_ne_nil d'.sets s.set_num
      · exact hm _ (List.mem_cons_of_mem _ he)
    · simp [setsOnlyUpdate, h] at he
      rcases he with rfl | he
      · exact hm _ (by simp)
      · exact setsOnlyUpdate_sets_ne_nil s year rest
          (fun e' he' => hm _ (List.mem_cons_of_mem _ he')) e he

theorem setsOnly_foldl_sets_ne_nil (invYears : List ℤ) :
    ∀ (sets : List SetRec) (m : List (ℤ × SetsOnlyData)),
      (∀ e ∈ m, e.2.sets ≠ []) →
      ∀ e ∈ sets.foldl (setsOnlyAggStep invYears) m, e.2.sets ≠ []
  | [], _, hm => hm
  | s :: sets, m, hm => by
    refine setsOnly_foldl_sets_ne_nil invYears sets _ ?_
    intro e he
    rcases hk : setsOnlyKeep invYears s with _ | year
    · simp only [setsOnlyAggStep, hk] at he
      exact hm e he
    · simp only [setsOnlyAggStep, hk] at he
      exact setsOnlyUpdate_sets_ne_nil s year m hm e he

/-- Claim C10: every emitted year trend, in both the inventory-joined and
the sets-only aggregation path, has a total set count of at least 1 — a
year bucket is only ever created together with a recorded set number — so
the average-pieces-per-set division never divides by zero and its
zero-fallback never produces the non-finite branch (the average is always
a finite rounded value). -/
theorem yearTrendSetsPositive (colorMap : List (ℕ × Color))
    (partMap : List (ℕ × Part)) (invMap : List (ℕ × ℕ))
    (setMap : List (ℕ × SetRec)) (rows : List InventoryPartRow)
    (sets : List SetRec) (t : YearTrend)
    (ht : t ∈ yearTrends colorMap partMap invMap setMap rows sets) :
    1 ≤ t.total_sets ∧ t.avg_pieces_per_set.isSome := by
  have ht' : t ∈ inventoryYearTrends colorMap partMap invMap setMap rows
      ++ setsOnlyYearTrends colorMap partMap invMap setMap rows sets :=
    (sortDescBy_perm YearTrend.year _).mem_iff.mp ht
  rcases List.mem_append.mp ht' with h | h
  · rw [inventoryYearTrends] at h
    obtain ⟨e, he, heq⟩ := List.mem_map.mp h
    have hne := yearAgg_foldl_sets_ne_nil colorMap invMap setMap rows []
      (by simp) e he
    have hlen : 1 ≤ e.2.sets.length :=
      Nat.pos_of_ne_zero (fun h0 => hne (List.length_eq_zero.mp h0))
    subst heq
    refine ⟨hlen, ?_⟩
    simp [jsAvgOr0, Nat.pos_iff_ne_zero.mp hlen]
  · rw [setsOnlyYearTrends] at h
    obtain ⟨e, he, heq⟩ := List.mem_map.mp h
    have hne := setsOnly_foldl_sets_ne_nil
      (inventoryYears colorMap partMap invMap setMap rows) sets [] (by simp) e he
    have hlen : 1 ≤ e.2.sets.length :=
      Nat.pos_of_ne_zero (fun h0 => hne (List.length_eq_zero.mp h0))
    subst heq
    refine ⟨hlen, ?_⟩
    simp [jsAvgOr0, Nat.pos_iff_ne_zero.mp hlen]

/-! ## Decade colors (`decadeColors`) -/

/-- One of the eight fixed decade windows; the label string "1950s" etc.
is encoded by its start year. -/
structure DecadeInfo where
  decade : ℕ
  startYear : ℤ
  endYear : ℤ
deriving DecidableEq, Repr

/-- The fixed decade table (1950s through 2020s, inclusive bounds). -/
def decades : List DecadeInfo :=
  [⟨1950, 1950, 1959⟩, ⟨1960, 1960, 1969⟩, ⟨1970, 1970, 1979⟩,
    ⟨1980, 1980, 1989⟩, ⟨1990, 1990, 1999⟩, ⟨2000, 2000, 2009⟩,
    ⟨2010, 2010, 2019⟩, ⟨2020, 2020, 2029⟩]

/-- In-place update of one decade's inner color aggregation map (the outer
map is pre-seeded with every decade, so the missing-key case is
unreachable and modelled as a no-op). -/
def decadeBump : List (ℕ × List ColorAggEntry) → ℕ → Color → ℕ →
    List (ℕ × List ColorAggEntry)
  | [], _, _, _ => []
  | (dec, colors) :: rest, k, c, qty =>
    if dec = k then (dec, colorBump c qty colors) :: rest
    else (dec, colors) :: decadeBump rest k c qty

/-- One iteration of the decade-color loop: resolve the row's set and
year (NaN skips, but no 1949 floor here), find the decade window, resolve
the color, and bump that decade's color aggregation. -/
def decadeAggStep (colorMap : List (ℕ × Color)) (invMap : List (ℕ × ℕ))
    (setMap : List (ℕ × SetRec)) (m : List (ℕ × List ColorAggEntry))
    (ip : InventoryPartRow) : List (ℕ × List ColorAggEntry) :=
  match resolveRow invMap setMap ip with
  | none => m
  | some (_, s) =>
    match s.year with
    | none => m
    | some year =>
      match decades.find?
          (fun d => decide (d.startYear ≤ year) && decide (year ≤ d.endYear)) with
      | none => m
      | some dInfo =>
        match mapGet colorMap ip.color_id with
        | none => m
        | some c => decadeBump m dInfo.decade c ip.quantity

/-- The per-decade color aggregation, seeded with all eight decades. -/
def decadeColorAgg (colorMap : List (ℕ × Color)) (invMap : List (ℕ × ℕ))
    (setMap : List (ℕ × SetRec)) (rows : List InventoryPartRow) :
    List (ℕ × List ColorAggEntry) :=
  rows.foldl (decadeAggStep colorMap invMap setMap)
    (decades.map (fun d => (d.decade, [])))

/-- One color of a decade entry: name, display color, percent of the
decade's total (2 decimal places). -/
structure DecadeColorItem where
  name : ℕ
  color : ℕ
  percent : ℚ
deriving DecidableEq, Repr

/-- Output item of `decade-colors.json`. -/
structure DecadeColorEntry where
  decade : ℕ
  colors : List DecadeColorItem
deriving DecidableEq, Repr

/-- The total matched quantity of one decade. -/
def decadeTotal (colorMap : List (ℕ × Color)) (invMap : List (ℕ × ℕ))
    (setMap : List (ℕ × SetRec)) (rows : List InventoryPartRow)
    (dec : ℕ) : ℕ :=
  ((mapGet (decadeColorAgg colorMap invMap setMap rows) dec).getD []).foldl
    (fun s c => s + c.quantity) 0

/-- The `decade-colors.json` array: per decade, the top 10 colors by
quantity as percents of the decade total; zero-total decades map to empty
color lists, and entries with empty color lists are filtered out. -/
def decadeColors (colorMap : List (ℕ × Color)) (invMap : List (ℕ × ℕ))
    (setMap : List (ℕ × SetRec)) (rows : List InventoryPartRow) :
    List DecadeColorEntry :=
  (decades.map (fun d =>
    if decadeTotal colorMap invMap setMap rows d.decade = 0 then
      (⟨d.decade, []⟩ : DecadeColorEntry)
    else
      ⟨d.decade,
        ((sortDescBy ColorAggEntry.quantity
            ((mapGet (decadeColorAgg colorMap invMap setMap rows) d.decade).getD
              [])).take 10).map
          (fun c => ⟨c.name, c.color,
            round2 ((c.quantity : ℚ)
              / (decadeTotal colorMap invMap setMap rows d.decade : ℚ) * 100)⟩)⟩)
  ).filter (fun d => !d.colors.isEmpty)

/-! ## Decade bounds (claim C9) -/

theorem sum_map_round2_le (xs : List ℚ) :
    (xs.map round2).sum ≤ xs.sum + xs.length * (1 / 200) := by
  induction xs with
  | nil => simp
  | cons x xs ih =>
    have hx := round2_le_add x
    simp only [List.map_cons, List.sum_cons, List.length_cons]
    push_cast
    linarith

theorem sum_take_le_nat : ∀ (l : List ℕ) (k : ℕ), (l.take k).sum ≤ l.sum
  | [], _ => by simp
  | _ :: _, 0 => Nat.zero_le _
  | x :: l, k + 1 => by
    simp only [List.take_succ_cons, List.sum_cons]
    exact Nat.add_le_add_left (sum_take_le_nat l k) x

theorem decades_decade_inj :
    ∀ a ∈ decades, ∀ b ∈ decades, a.decade = b.decade → a = b := by decide

/-- Claim C9 (amended): the decade-colors output omits every decade whose
total matched quantity is 0; each emitted decade lists at least one and at
most 10 colors; and since each listed percent is the exact share rounded
to 2 decimals, the percents sum to at most 100 plus 0.005 per listed color
(so at most 100.05) — the sum can exceed 100 by rounding, and can fall
below 100 even with at most 10 distinct colors. -/
theorem decadeColorsBounds (colorMap : List (ℕ × Color)) (invMap : List (ℕ × ℕ))
    (setMap : List (ℕ × SetRec)) (rows : List InventoryPartRow) :
    (∀ d ∈ decades, decadeTotal colorMap invMap setMap rows d.decade = 0 →
        d.decade ∉ (decadeColors colorMap invMap setMap rows).map
          DecadeColorEntry.decade)
    ∧ (∀ o ∈ decadeColors colorMap invMap setMap rows,
        o.colors ≠ [] ∧ o.colors.length ≤ 10
        ∧ (o.colors.map DecadeColorItem.percent).sum
            ≤ 100 + (o.colors.length : ℚ) * (1 / 200)) := by
  constructor
  · rintro d hd h0 hmem
    obtain ⟨o, ho, hodec⟩ := List.mem_map.mp hmem
    obtain ⟨homap, hpred⟩ := List.mem_filter.mp ho
    obtain ⟨d', hd', hfd⟩ := List.mem_map.mp homap
    have hlabel : d'.decade = d.decade := by
      rw [← hodec, ← hfd]
      by_cases ht : decadeTotal colorMap invMap setMap rows d'.decade = 0 <;>
        simp [ht]
    have hdd : d' = d := decades_decade_inj d' hd' d hd hlabel
    subst hdd
    rw [if_pos h0] at hfd
    rw [← hfd] at hpred
    simp at hpred
  · intro o ho
    obtain ⟨homap, hpred⟩ := List.mem_filter.mp ho
    have hne : o.colors ≠ [] := by
      intro hnil
      rw [Bool.not_eq_eq_eq_not, Bool.not_true, List.isEmpty_eq_false] at hpred
      exact hpred hnil
    obtain ⟨d, hd, hfd⟩ := List.mem_map.mp homap
    by_cases ht : decadeTotal colorMap invMap setMap rows d.decade = 0
    · rw [if_pos ht] at hfd
      rw [← hfd] at hne
      simp at hne
    · rw [if_neg ht] at hfd
      refine ⟨hne, ?_, ?_⟩
      · rw [← hfd]
        simp only [List.length_map, List.length_take]
        exact min_le_left _ _
      · have hT : decadeTotal colorMap invMap setMap rows d.decade
            = (((mapGet (decadeColorAgg colorMap invMap setMap rows) d.decade).getD
                []).map ColorAggEntry.quantity).sum := by
          rw [decadeTotal, foldl_add_eq]
          simp
        have hsort := sortDescBy_perm ColorAggEntry.quantity
          ((mapGet (decadeColorAgg colorMap invMap setMap rows) d.decade).getD [])
        have hsum : ((sortDescBy ColorAggEntry.quantity
            ((mapGet (decadeColorAgg colorMap invMap setMap rows) d.decade).getD
              [])).map ColorAggEntry.quantity).sum
            = decadeTotal colorMap invMap setMap rows d.decade := by
          rw [(hsort.map ColorAggEntry.quantity).sum_eq, hT]
        have hqs : (((sortDescBy ColorAggEntry.quantity
            ((mapGet (decadeColorAgg colorMap invMap setMap rows) d.decade).getD
              [])).take 10).map ColorAggEntry.quantity).sum
            ≤ decadeTotal colorMap invMap setMap rows d.decade := by
          rw [List.map_take, ← hsum]
          exact sum_take_le_nat _ 10
        have hproj : o.colors.map DecadeColorItem.percent
            = ((((sortDescBy ColorAggEntry.quantity
                ((mapGet (decadeColorAgg colorMap invMap setMap rows)
                  d.decade).getD [])).take 10).map
              ColorAggEntry.quantity).map
                (fun q : ℕ => (q : ℚ)
                  / (decadeTotal colorMap invMap setMap rows d.decade : ℚ)
                  * 100)).map round2 := by
          rw [← hfd]
          simp only [List.map_map]
          rfl
        have hlen : o.colors.length
            = ((((sortDescBy ColorAggEntry.quantity
                ((mapGet (decadeColorAgg colorMap invMap setMap rows)
                  d.decade).getD [])).take 10).map
              ColorAggEntry.quantity).map
                (fun q : ℕ => (q : ℚ)
                  / (decadeTotal colorMap invMap setMap rows d.decade : ℚ)
                  * 100)).length := by
          rw [← hfd]
          simp
        have hxs : (((((sortDescBy ColorAggEntry.quantity
            ((mapGet (decadeColorAgg colorMap invMap setMap rows) d.decade).getD
              [])).take 10).map ColorAggEntry.quantity).map
            (fun q : ℕ => (q : ℚ)
              / (decadeTotal colorMap invMap setMap rows d.decade : ℚ) * 100)).sum)
            ≤ 100 := by
          rw [sum_map_ratio]
          have hTpos : (0 : ℚ) < (decadeTotal colorMap invMap setMap rows d.decade : ℚ) := by
            exact_mod_cast Nat.pos_of_ne_zero ht
          have hdiv : ((((sortDescBy ColorAggEntry.quantity
              ((mapGet (decadeColorAgg colorMap invMap setMap rows) d.decade).getD
                [])).take 10).map ColorAggEntry.quantity).sum : ℚ)
              / (decadeTotal colorMap invMap setMap rows d.decade : ℚ)
              ≤ (decadeTotal colorMap invMap setMap rows d.decade : ℚ)
                / (decadeTotal colorMap invMap setMap rows d.decade : ℚ) :=
            (div_le_div_iff_of_pos_right hTpos).mpr (by exact_mod_cast hqs)
          calc ((((sortDescBy ColorAggEntry.quantity
              ((mapGet (decadeColorAgg colorMap invMap setMap rows) d.decade).getD
                [])).take 10).map ColorAggEntry.quantity).sum : ℚ)
              / (decadeTotal colorMap invMap setMap rows d.decade : ℚ) * 100
              ≤ (decadeTotal colorMap invMap setMap rows d.decade : ℚ)
                / (decadeTotal colorMap invMap setMap rows d.decade : ℚ) * 100 := by
                exact mul_le_mul_of_nonneg_right hdiv (by norm_num)
            _ = 100 := by
                rw [div_self (ne_of_gt hTpos), one_mul]
        rw [hproj, hlen]
        calc ((((((sortDescBy ColorAggEntry.quantity
            ((mapGet (decadeColorAgg colorMap invMap setMap rows) d.decade).getD
              [])).take 10).map ColorAggEntry.quantity).map
            (fun q : ℕ => (q : ℚ)
              / (decadeTotal colorMap invMap setMap rows d.decade : ℚ) * 100)).map
              round2).sum)
            ≤ (((((sortDescBy ColorAggEntry.quantity
            ((mapGet (decadeColorAgg colorMap invMap setMap rows) d.decade).getD
              [])).take 10).map ColorAggEntry.quantity).map
            (fun q : ℕ => (q : ℚ)
              / (decadeTotal colorMap invMap setMap rows d.decade : ℚ) * 100)).sum)
              + ((((sortDescBy ColorAggEntry.quantity
            ((mapGet (decadeColorAgg colorMap invMap setMap rows) d.decade).getD
              [])).take 10).map ColorAggEntry.quantity).map
            (fun q : ℕ => (q : ℚ)
              / (decadeTotal colorMap invMap setMap rows d.decade : ℚ) * 100)).length
                * (1 / 200) := sum_map_round2_le _
          _ ≤ 100 + ((((sortDescBy ColorAggEntry.quantity
            ((mapGet (decadeColorAgg colorMap invMap setMap rows) d.decade).getD
              [])).take 10).map ColorAggEntry.quantity).map
            (fun q : ℕ => (q : ℚ)
              / (decadeTotal colorMap invMap setMap rows d.decade : ℚ) * 100)).length
                * (1 / 200) := by linarith

/-! ## Curve sampling (`sampleCurvePoints`) -/

/-- A point of a coverage curve (possibly downsampled). -/
structure CurvePoint where
  rank : ℕ
  name : ℕ
  quantity : ℕ
  cumulative_percent : Option ℚ
deriving DecidableEq, Repr, Inhabited

/-- One iteration of the log-sampling loop.  `rnk i` abstracts the
floating-point expression `Math.round(Math.pow(10, (i / maxPoints) *
Math.log10(data.length)))`, whose value the properties below do not depend
on beyond `rnk 0 = 1` (IEEE evaluation gives `10 ^ 0 = 1` exactly at
`i = 0`); the explicit `max 1` is the source's `Math.max(1, ...)` clamp.
The state carries the seen ranks and the collected points. -/
def sampleStep (rnk : ℕ → ℕ) (data : List CurvePoint)
    (st : List ℕ × List CurvePoint) (i : ℕ) : List ℕ × List CurvePoint :=
  if (data.getD (min (max 1 (rnk i) - 1) (data.length - 1)) default).rank ∈ st.1
  then st
  else ((data.getD (min (max 1 (rnk i) - 1) (data.length - 1)) default).rank :: st.1,
    st.2 ++ [data.getD (min (max 1 (rnk i) - 1) (data.length - 1)) default])

/-- The curve sampler: inputs no longer than `maxPoints` are returned
unchanged; otherwise collect log-spaced points with rank deduplication,
force-include the first and last data points (checked against the loop's
seen-rank set), and re-sort ascending by rank. -/
def sampleCurvePoints (rnk : ℕ → ℕ) (data : List CurvePoint)
    (maxPoints : ℕ) : List CurvePoint :=
  if data.length ≤ maxPoints then data
  else
    sortAscBy CurvePoint.rank
      ((if (data.getD 0 default).rank
            ∈ ((List.range maxPoints).foldl (sampleStep rnk data) ([], [])).1 then
          ((List.range maxPoints).foldl (sampleStep rnk data) ([], [])).2
        else data.getD 0 default
          :: ((List.range maxPoints).foldl (sampleStep rnk data) ([], [])).2)
      ++ (if (data.getD (data.length - 1) default).rank
            ∈ ((List.range maxPoints).foldl (sampleStep rnk data) ([], [])).1 then
          []
        else [data.getD (data.length - 1) default]))

/-- A curve is rank-ordered when the point at index `i` has rank `i + 1`,
as produced by every aggregator in this pipeline. -/
def rankOrdered (data : List CurvePoint) : Prop :=
  ∀ (i : ℕ) (h : i < data.length), (data.get ⟨i, h⟩).rank = i + 1

theorem getD_eq_get {α : Type} [Inhabited α] :
    ∀ (l : List α) (idx : ℕ) (d : α) (h : idx < l.length),
      l.getD idx d = l.get ⟨idx, h⟩
  | [], idx, d, h => absurd h (by simp)
  | x :: l, 0, d, h => rfl
  | x :: l, idx + 1, d, h => getD_eq_get l idx d (by simpa using h)

theorem getD_mem {α : Type} [Inhabited α] (l : List α) (idx : ℕ) (d : α)
    (h : idx < l.length) : l.getD idx d ∈ l := by
  rw [getD_eq_get l idx d h]
  exact List.get_mem l idx h

/-- The loop-state invariant: the seen set tracks exactly the ranks of the
collected points, those ranks are duplicate-free, and every collected
point comes from the data. -/
def sampleInv (data : List CurvePoint) (st : List ℕ × List CurvePoint) : Prop :=
  (∀ r, r ∈ st.1 ↔ r ∈ st.2.map CurvePoint.rank)
  ∧ (st.2.map CurvePoint.rank).Nodup
  ∧ (∀ p ∈ st.2, p ∈ data)

theorem sampleStep_inv (rnk : ℕ → ℕ) (data : List CurvePoint)
    (hdata : data ≠ []) (st : List ℕ × List CurvePoint) (i : ℕ)
    (hst : sampleInv data st) : sampleInv data (sampleStep rnk data st i) := by
  obtain ⟨hiff, hnd, hmem⟩ := hst
  have hidx : min (max 1 (rnk i) - 1) (data.length - 1) < data.length := by
    have : 1 ≤ data.length := List.length_pos.mpr hdata
    omega
  have hptmem : data.getD (min (max 1 (rnk i) - 1) (data.length - 1)) default ∈ data :=
    getD_mem data _ default hidx
  rw [sampleStep]
  split
  · exact ⟨hiff, hnd, hmem⟩
  · rename_i hseen
    refine ⟨?_, ?_, ?_⟩
    · intro r
      simp only [List.mem_cons, List.map_append, List.mem_append, hiff,
        List.map_cons, List.map_nil, List.mem_singleton]
      tauto
    · rw [List.map_append, List.nodup_append]
      refine ⟨hnd, by simp, ?_⟩
      intro r hr hr'
      simp only [List.map_cons, List.map_nil, List.mem_singleton] at hr'
      subst hr'
      exact hseen ((hiff _).mpr hr)
    · intro p hp
      rcases List.mem_append.mp hp with hp | hp
      · exact hmem p hp
      · rw [List.mem_singleton] at hp
        subst hp
        exact hptmem

theorem sampleLoop_inv (rnk : ℕ → ℕ) (data : List CurvePoint)
    (hdata : data ≠ []) :
    ∀ (l : List ℕ) (st : List ℕ × List CurvePoint), sampleInv data st →
      sampleInv data (l.foldl (sampleStep rnk data) st)
  | [], _, hst => hst
  | i :: l, st, hst =>
    sampleLoop_inv rnk data hdata l (sampleStep rnk data st i)
      (sampleStep_inv rnk data hdata st i hst)

theorem sampleLoop_mem (rnk : ℕ → ℕ) (data : List CurvePoint)
    (p : CurvePoint) :
    ∀ (l : List ℕ) (st : List ℕ × List CurvePoint), p ∈ st.2 →
      p ∈ (l.foldl (sampleStep rnk data) st).2
  | [], _, hp => hp
  | i :: l, st, hp => by
    refine sampleLoop_mem rnk data p l (sampleStep rnk data st i) ?_
    rw [sampleStep]
    split
    · exact hp
    · exact List.mem_append_left _ hp

theorem sampleLoop_len (rnk : ℕ → ℕ) (data : List CurvePoint) :
    ∀ (l : List ℕ) (st : List ℕ × List CurvePoint),
      (l.foldl (sampleStep rnk data) st).2.length ≤ st.2.length + l.length
  | [], _ => by simp
  | i :: l, st => by
    have hrec := sampleLoop_len rnk data l (sampleStep rnk data st i)
    have hstep : (sampleStep rnk data st i).2.length ≤ st.2.length + 1 := by
      rw [sampleStep]
      split
      · simp
      · simp
    simp only [List.foldl_cons, List.length_cons]
    omega

theorem sampleLoop_first_mem (rnk : ℕ → ℕ) (data : List CurvePoint)
    (maxPoints : ℕ) (hM : 1 ≤ maxPoints) (h0 : rnk 0 = 1) :
    data.getD 0 default
      ∈ ((List.range maxPoints).foldl (sampleStep rnk data) ([], [])).2 := by
  obtain ⟨M, rfl⟩ : ∃ M, maxPoints = M + 1 := ⟨maxPoints - 1, by omega⟩
  rw [List.range_succ_eq_map, List.foldl_cons]
  apply sampleLoop_mem
  have hidx : min (max 1 (rnk 0) - 1) (data.length - 1) = 0 := by
    rw [h0]
    simp
  rw [sampleStep, hidx]
  simp

instance : IsTotal CurvePoint (fun a b => a.rank ≤ b.rank) :=
  ⟨fun a b => Nat.le_total a.rank b.rank⟩

instance : IsTrans CurvePoint (fun a b => a.rank ≤ b.rank) :=
  ⟨fun _ _ _ hab hbc => Nat.le_trans hab hbc⟩

/-- Claim C3 (amended with `maxPoints ≥ 1`): the Curve Sampler returns
inputs of length at most `maxPoints` unchanged; and for a non-empty
rank-ordered input longer than `maxPoints ≥ 1`, the output contains the
first point (rank 1) and the last point (rank N), has no duplicate ranks,
has length at most `maxPoints + 2`, and is sorted ascending by rank.  The
abstracted log-rank function only needs to satisfy `rnk 0 = 1`, which IEEE
arithmetic guarantees for the source expression at `i = 0`. -/
theorem sampleCurvePoints_spec (rnk : ℕ → ℕ) (data : List CurvePoint)
    (maxPoints : ℕ) :
    (data.length ≤ maxPoints → sampleCurvePoints rnk data maxPoints = data)
    ∧ (1 ≤ maxPoints → maxPoints < data.length → rnk 0 = 1 → rankOrdered data →
        data.getD 0 default ∈ sampleCurvePoints rnk data maxPoints
        ∧ data.getD (data.length - 1) default ∈ sampleCurvePoints rnk data maxPoints
        ∧ ((sampleCurvePoints rnk data maxPoints).map CurvePoint.rank).Nodup
        ∧ (sampleCurvePoints rnk data maxPoints).length ≤ maxPoints + 2
        ∧ (sampleCurvePoints rnk data maxPoints).Pairwise
            (fun a b => a.rank ≤ b.rank)) := by
  constructor
  · intro hle
    rw [sampleCurvePoints, if_pos hle]
  · intro hM hlen h0 hord
    have hnle : ¬ (data.length ≤ maxPoints) := by omega
    have hdata : data ≠ [] := by
      intro h
      rw [h] at hlen
      simp at hlen
    obtain ⟨hiff, hnd, hmem⟩ :=
      sampleLoop_inv rnk data hdata (List.range maxPoints) ([], [])
        ⟨by simp, by simp, by simp⟩
    have hfirst := sampleLoop_first_mem rnk data maxPoints hM h0
    have hfseen : (data.getD 0 default).rank
        ∈ ((List.range maxPoints).foldl (sampleStep rnk data) ([], [])).1 :=
      (hiff _).mpr (List.mem_map_of_mem CurvePoint.rank hfirst)
    have hlast_mem_or : data.getD (data.length - 1) default
          ∈ ((List.range maxPoints).foldl (sampleStep rnk data) ([], [])).2
        ∨ ¬ ((data.getD (data.length - 1) default).rank
          ∈ ((List.range maxPoints).foldl (sampleStep rnk data) ([], [])).1) := by
      by_cases hlseen : (data.getD (data.length - 1) default).rank
          ∈ ((List.range maxPoints).foldl (sampleStep rnk data) ([], [])).1
      · left
        obtain ⟨p, hp, hpr⟩ := List.mem_map.mp ((hiff _).mp hlseen)
        obtain ⟨j, hj⟩ := List.mem_iff_get.mp (hmem p hp)
        have hrank_p : p.rank = j.1 + 1 := by
          rw [← hj]
          exact hord j.1 j.2
        have hlast_lt : data.length - 1 < data.length := by omega
        have hrank_last : (data.getD (data.length - 1) default).rank
            = data.length := by
          rw [getD_eq_get data _ default hlast_lt, hord (data.length - 1) hlast_lt]
          omega
        have hj_eq : j.1 = data.length - 1 := by
          rw [hrank_last] at hpr
          have hjlt := j.2
          omega
        have hp_last : p = data.getD (data.length - 1) default := by
          rw [getD_eq_get data _ default hlast_lt, ← hj]
          congr 1
          exact Fin.ext hj_eq
        rw [← hp_last]
        exact hp
      · exact Or.inr hlseen
    -- the pre-sort list
    have hL : sampleCurvePoints rnk data maxPoints
        = sortAscBy CurvePoint.rank
          ((((List.range maxPoints).foldl (sampleStep rnk data) ([], [])).2)
            ++ (if (data.getD (data.length - 1) default).rank
                  ∈ ((List.range maxPoints).foldl (sampleStep rnk data) ([], [])).1
                then []
                else [data.getD (data.length - 1) default])) := by
      rw [sampleCurvePoints, if_neg hnle, if_pos hfseen]
    have hperm := sortAscBy_perm CurvePoint.rank
      ((((List.range maxPoints).foldl (sampleStep rnk data) ([], [])).2)
        ++ (if (data.getD (data.length - 1) default).rank
              ∈ ((List.range maxPoints).foldl (sampleStep rnk data) ([], [])).1
            then []
            else [data.getD (data.length - 1) default]))
    refine ⟨?_, ?_, ?_, ?_, ?_⟩
    · rw [hL]
      exact hperm.mem_iff.mpr (List.mem_append_left _ hfirst)
    · rw [hL]
      refine hperm.mem_iff.mpr ?_
      rcases hlast_mem_or with hin | hnseen
      · exact List.mem_append_left _ hin
      · refine List.mem_append_right _ ?_
        rw [if_neg hnseen]
        simp
    · rw [hL]
      refine ((hperm.map CurvePoint.rank).nodup_iff).mpr ?_
      rw [List.map_append, List.nodup_append]
      refine ⟨hnd, ?_, ?_⟩
      · split
        · simp
        · simp
      · intro r hr hr'
        split at hr'
        · simp at hr'
        · rename_i hnseen
          simp only [List.map_cons, List.map_nil, List.mem_singleton] at hr'
          subst hr'
          exact hnseen ((hiff _).mpr hr)
    · rw [hL, hperm.length_eq, List.length_append]
      have hlenloop := sampleLoop_len rnk data (List.range maxPoints) ([], [])
      simp only [List.length_nil, List.length_range, Nat.zero_add] at hlenloop
      have htail : (if (data.getD (data.length - 1) default).rank
            ∈ ((List.range maxPoints).foldl (sampleStep rnk data) ([], [])).1
          then ([] : List CurvePoint)
          else [data.getD (data.length - 1) default]).length ≤ 1 := by
        split
        · simp
        · simp
      omega
    · rw [hL]
      exact List.sorted_insertionSort (fun a b : CurvePoint => a.rank ≤ b.rank) _

/-! ## Period coverage (`computePeriodCoverage`) and the custom-range
fast path (`aggregateYearData`) -/

/-- An item of the period-scoped part/color statistics.  The percent
fields are guarded by the `total > 0 ? ... : 0` check in the source, so
they are always finite. -/
structure PeriodItem where
  name : ℕ
  percent : ℚ
  cumulative_percent : ℚ
  rank : ℕ
  quantity : ℕ
deriving DecidableEq, Repr

/-- One iteration of the period part loop: resolve the row's year, apply
the period filter, and bump the part-number key. -/
def periodPartStep (invMap : List (ℕ × ℕ)) (setMap : List (ℕ × SetRec))
    (keep : ℤ → Bool) (m : List (ℕ × ℕ)) (ip : InventoryPartRow) :
    List (ℕ × ℕ) :=
  match resolveSetYear invMap setMap ip with
  | none => m
  | some y => if keep y then bumpCount m ip.part_num ip.quantity else m

/-- Period part aggregation: every row whose resolved year passes the
period filter is grouped by part number (key, accumulated quantity). -/
def periodPartAgg (invMap : List (ℕ × ℕ)) (setMap : List (ℕ × SetRec))
    (keep : ℤ → Bool) (rows : List InventoryPartRow) : List (ℕ × ℕ) :=
  rows.foldl (periodPartStep invMap setMap keep) []

/-- One iteration of the period color loop: as the all-time color loop,
further restricted by the period filter. -/
def periodColorStep (colorMap : List (ℕ × Color)) (invMap : List (ℕ × ℕ))
    (setMap : List (ℕ × SetRec)) (keep : ℤ → Bool)
    (m : List ColorAggEntry) (ip : InventoryPartRow) : List ColorAggEntry :=
  match resolveSetYear invMap setMap ip with
  | none => m
  | some y =>
    if keep y then
      match mapGet colorMap ip.color_id with
      | none => m
      | some c => colorBump c ip.quantity m
    else m

/-- Period color aggregation. -/
def periodColorAgg (colorMap : List (ℕ × Color)) (invMap : List (ℕ × ℕ))
    (setMap : List (ℕ × SetRec)) (keep : ℤ → Bool)
    (rows : List InventoryPartRow) : List ColorAggEntry :=
  rows.foldl (periodColorStep colorMap invMap setMap keep) []

/-- The period's part grand total (reduce over the sorted aggregation). -/
def periodPartsTotal (invMap : List (ℕ × ℕ)) (setMap : List (ℕ × SetRec))
    (keep : ℤ → Bool) (rows : List InventoryPartRow) : ℕ :=
  (sortDescBy Prod.snd (periodPartAgg invMap setMap keep rows)).foldl
    (fun s p => s + p.2) 0

/-- The period's color grand total. -/
def periodColorsTotal (colorMap : List (ℕ × Color)) (invMap : List (ℕ × ℕ))
    (setMap : List (ℕ × SetRec)) (keep : ℤ → Bool)
    (rows : List InventoryPartRow) : ℕ :=
  (sortDescBy ColorAggEntry.quantity
    (periodColorAgg colorMap invMap setMap keep rows)).foldl
    (fun s c => s + c.quantity) 0

/-- The period part items pass (rank, guarded rounded percents). -/
def periodPartItemsAux (partMap : List (ℕ × Part)) (total : ℕ) :
    ℕ → ℕ → List (ℕ × ℕ) → List PeriodItem
  | _, _, [] => []
  | cum, idx, p :: rest =>
    ⟨partNameOf partMap p.1,
      (if 0 < total then round4 ((p.2 : ℚ) / (total : ℚ) * 100) else 0),
      (if 0 < total then round4 (((cum + p.2 : ℕ) : ℚ) / (total : ℚ) * 100) else 0),
      idx + 1, p.2⟩
      :: periodPartItemsAux partMap total (cum + p.2) (idx + 1) rest

/-- The `periodPartFrequency` array of one period. -/
def periodPartItems (invMap : List (ℕ × ℕ)) (setMap : List (ℕ × SetRec))
    (partMap : List (ℕ × Part)) (keep : ℤ → Bool)
    (rows : List InventoryPartRow) : List PeriodItem :=
  periodPartItemsAux partMap (periodPartsTotal invMap setMap keep rows) 0 0
    (sortDescBy Prod.snd (periodPartAgg invMap setMap keep rows))

/-- The period color items pass. -/
def periodColorItemsAux (total : ℕ) :
    ℕ → ℕ → List ColorAggEntry → List PeriodItem
  | _, _, [] => []
  | cum, idx, c :: rest =>
    ⟨c.name,
      (if 0 < total then round4 ((c.quantity : ℚ) / (total : ℚ) * 100) else 0),
      (if 0 < total
        then round4 (((cum + c.quantity : ℕ) : ℚ) / (total : ℚ) * 100) else 0),
      idx + 1, c.quantity⟩
      :: periodColorItemsAux total (cum + c.quantity) (idx + 1) rest

/-- The `periodColorStats` array of one period. -/
def periodColorItems (colorMap : List (ℕ × Color)) (invMap : List (ℕ × ℕ))
    (setMap : List (ℕ × SetRec)) (keep : ℤ → Bool)
    (rows : List InventoryPartRow) : List PeriodItem :=
  periodColorItemsAux (periodColorsTotal colorMap invMap setMap keep rows) 0 0
    (sortDescBy ColorAggEntry.quantity
      (periodColorAgg colorMap invMap setMap keep rows))

/-- A `PeriodCoverageData` record (thresholds keyed "50" through "99"). -/
structure PeriodCoverageData where
  total_unique : ℕ
  total_quantity : ℕ
  t50 : CoverageThreshold
  t80 : CoverageThreshold
  t90 : CoverageThreshold
  t95 : CoverageThreshold
  t99 : CoverageThreshold
deriving DecidableEq, Repr

/-- Re-expression of a `PeriodItem` for threshold items. -/
def PeriodItem.toThresholdItem (p : PeriodItem) : ThresholdItem :=
  ⟨p.name, some p.percent, some p.cumulative_percent⟩

/-- The `buildCoverageData` helper of the period pipeline. -/
def buildCoverageData (items : List PeriodItem) (totalQuantity : ℕ) :
    PeriodCoverageData :=
  ⟨items.length, totalQuantity,
    getThresholdItems PeriodItem.toThresholdItem items 50,
    getThresholdItems PeriodItem.toThresholdItem items 80,
    getThresholdItems PeriodItem.toThresholdItem items 90,
    getThresholdItems PeriodItem.toThresholdItem items 95,
    getThresholdItems PeriodItem.toThresholdItem items 99⟩

/-- Curve points of a period item list. -/
def periodCurve (items : List PeriodItem) : List CurvePoint :=
  items.map (fun p => ⟨p.rank, p.name, p.quantity, some p.cumulative_percent⟩)

/-- Period data with threshold records and (sampled) curves, as consumed
by the frontend; the curves are optional fields there. -/
structure PeriodDataWithCurves where
  parts : PeriodCoverageData
  colors : PeriodCoverageData
  parts_curve : Option (List CurvePoint)
  colors_curve : Option (List CurvePoint)
deriving DecidableEq, Repr

/-- The period filter of the source `computePeriodCoverage(minYear)`:
skip rows whose year is below the lower bound. -/
def minYearKeep (minYear : ℤ) (y : ℤ) : Bool := !decide (y < minYear)

/-- The period filter of a custom range `[startYear, endYear]`. -/
def rangeKeep (s e : ℤ) (y : ℤ) : Bool := decide (s ≤ y) && decide (y ≤ e)

/-- The source `computePeriodCoverage(minYear)` of `postprocess.ts`:
period-scoped part/color coverage with sampled curves.  `rnkFam n i`
abstracts the sampler's floating-point log-rank expression for a curve of
length `n`. -/
def computePeriodCoverage (rnkFam : ℕ → ℕ → ℕ) (colorMap : List (ℕ × Color))
    (partMap : List (ℕ × Part)) (invMap : List (ℕ × ℕ))
    (setMap : List (ℕ × SetRec)) (rows : List InventoryPartRow)
    (minYear : ℤ) : PeriodDataWithCurves :=
  ⟨buildCoverageData
      (periodPartItems invMap setMap partMap (minYearKeep minYear) rows)
      (periodPartsTotal invMap setMap (minYearKeep minYear) rows),
    buildCoverageData
      (periodColorItems colorMap invMap setMap (minYearKeep minYear) rows)
      (periodColorsTotal colorMap invMap setMap (minYearKeep minYear) rows),
    some (sampleCurvePoints
      (rnkFam (periodCurve
        (periodPartItems invMap setMap partMap (minYearKeep minYear) rows)).length)
      (periodCurve (periodPartItems invMap setMap partMap (minYearKeep minYear) rows))
      500),
    some (sampleCurvePoints
      (rnkFam (periodCurve
        (periodColorItems colorMap invMap setMap (minYearKeep minYear) rows)).length)
      (periodCurve
        (periodColorItems colorMap invMap setMap (minYearKeep minYear) rows))
      500)⟩

/-- Modelled from the spec: the source `computePeriodCoverage` takes only
a lower year bound, while section 4.4 of the spec requires re-aggregation
"restricted to inventory-part rows whose resolved year falls in range" for
an arbitrary custom range `[startYear, endYear]`; this is that
range-restricted rescan (identical to `computePeriodCoverage` except that
the filter also applies the upper bound). -/
def computePeriodCoverageRange (rnkFam : ℕ → ℕ → ℕ)
    (colorMap : List (ℕ × Color)) (partMap : List (ℕ × Part))
    (invMap : List (ℕ × ℕ)) (setMap : List (ℕ × SetRec))
    (rows : List InventoryPartRow) (s e : ℤ) : PeriodDataWithCurves :=
  ⟨buildCoverageData (periodPartItems invMap setMap partMap (rangeKeep s e) rows)
      (periodPartsTotal invMap setMap (rangeKeep s e) rows),
    buildCoverageData
      (periodColorItems colorMap invMap setMap (rangeKeep s e) rows)
      (periodColorsTotal colorMap invMap setMap (rangeKeep s e) rows),
    some (sampleCurvePoints
      (rnkFam (periodCurve
        (periodPartItems invMap setMap partMap (rangeKeep s e) rows)).length)
      (periodCurve (periodPartItems invMap setMap partMap (rangeKeep s e) rows))
      500),
    some (sampleCurvePoints
      (rnkFam (periodCurve
        (periodColorItems colorMap invMap setMap (rangeKeep s e) rows)).length)
      (periodCurve (periodColorItems colorMap invMap setMap (rangeKeep s e) rows))
      500)⟩

/-- The per-year curve buckets (`by_period["year_YYYY"]`) the frontend's
custom-range fast path consumes: each year's bucket is the per-year rescan.
Modelled from the spec: no code under `src/` emits these buckets; spec
section 4.4 describes them as "pre-bucketed per-year curve data". -/
def perYearBuckets (rnkFam : ℕ → ℕ → ℕ) (colorMap : List (ℕ × Color))
    (partMap : List (ℕ × Part)) (invMap : List (ℕ × ℕ))
    (setMap : List (ℕ × SetRec)) (rows : List InventoryPartRow) :
    ℤ → Option PeriodDataWithCurves :=
  fun y => some (computePeriodCoverageRange rnkFam colorMap partMap invMap setMap
    rows y y)

/-- A name-keyed quantity accumulator of the frontend fast path
(`partsQuantities` / `colorsQuantities`, JS Maps keyed by display name). -/
structure NameQty where
  name : ℕ
  quantity : ℕ
deriving DecidableEq, Repr

/-- The fast path's merge of one curve item into the name-keyed map. -/
def nqBump : List NameQty → ℕ → ℕ → List NameQty
  | [], nm, q => [⟨nm, q⟩]
  | e :: rest, nm, q =>
    if e.name = nm then ⟨e.name, e.quantity + q⟩ :: rest
    else e :: nqBump rest nm q

/-- The inclusive year range `for (let year = startYear; year <= endYear;
year++)`. -/
def yearList (s e : ℤ) : List ℤ :=
  (List.range (e + 1 - s).toNat).map (fun i : ℕ => s + (i : ℤ))

/-- Folding one bucket curve into the fast path's (map, running total)
state. -/
def aydCollectCurve (st : List NameQty × ℕ) (curve : List CurvePoint) :
    List NameQty × ℕ :=
  curve.foldl
    (fun st item => (nqBump st.1 item.name item.quantity, st.2 + item.quantity)) st

/-- One iteration of the fast path's year loop: skip missing buckets,
then merge the bucket's part and color curves (when present). -/
def aydYearStep (buckets : ℤ → Option PeriodDataWithCurves)
    (st : (List NameQty × ℕ) × (List NameQty × ℕ)) (y : ℤ) :
    (List NameQty × ℕ) × (List NameQty × ℕ) :=
  match buckets y with
  | none => st
  | some b =>
    ((match b.parts_curve with
      | none => st.1
      | some curve => aydCollectCurve st.1 curve),
      (match b.colors_curve with
      | none => st.2
      | some curve => aydCollectCurve st.2 curve))

/-- The fast path's year loop over the whole range. -/
def aydCollect (buckets : ℤ → Option PeriodDataWithCurves) (s e : ℤ) :
    (List NameQty × ℕ) × (List NameQty × ℕ) :=
  (yearList s e).foldl (aydYearStep buckets) (([], 0), ([], 0))

/-- The fast path's curve construction: ranks and exact (unrounded)
cumulative percentages over the merged quantities. -/
def aydCurveAux (total : ℕ) : ℕ → ℕ → List NameQty → List CurvePoint
  | _, _, [] => []
  | cum, idx, x :: rest =>
    ⟨idx + 1, x.name, x.quantity, jsRawPct (cum + x.quantity) total⟩
      :: aydCurveAux total (cum + x.quantity) (idx + 1) rest

/-- The fast path's threshold computation (`findIndex` of the first
crossing, unrounded percents in the item list). -/
def aydThreshold (total : ℕ) (curve : List CurvePoint) (level : ℚ) :
    CoverageThreshold :=
  ⟨(match curve.findIdx? (fun p => oge p.cumulative_percent level) with
    | some i => i + 1
    | none => curve.length),
    (curve.take (min 10
      (match curve.findIdx? (fun p => oge p.cumulative_percent level) with
        | some i => i + 1
        | none => curve.length))).map
      (fun p => ⟨p.name, jsRawPct p.quantity total, p.cumulative_percent⟩)⟩

/-- The frontend's `aggregateYearData`: aggregate pre-bucketed per-year
curve data by display name over a custom year range and rebuild coverage
data with exact (unrounded) percentages. -/
def aggregateYearData (buckets : ℤ → Option PeriodDataWithCurves) (s e : ℤ) :
    PeriodDataWithCurves :=
  ⟨⟨(sortDescBy NameQty.quantity (aydCollect buckets s e).1.1).length,
      (aydCollect buckets s e).1.2,
      aydThreshold (aydCollect buckets s e).1.2
        (aydCurveAux (aydCollect buckets s e).1.2 0 0
          (sortDescBy NameQty.quantity (aydCollect buckets s e).1.1)) 50,
      aydThreshold (aydCollect buckets s e).1.2
        (aydCurveAux (aydCollect buckets s e).1.2 0 0
          (sortDescBy NameQty.quantity (aydCollect buckets s e).1.1)) 80,
      aydThreshold (aydCollect buckets s e).1.2
        (aydCurveAux (aydCollect buckets s e).1.2 0 0
          (sortDescBy NameQty.quantity (aydCollect buckets s e).1.1)) 90,
      aydThreshold (aydCollect buckets s e).1.2
        (aydCurveAux (aydCollect buckets s e).1.2 0 0
          (sortDescBy NameQty.quantity (aydCollect buckets s e).1.1)) 95,
      aydThreshold (aydCollect buckets s e).1.2
        (aydCurveAux (aydCollect buckets s e).1.2 0 0
          (sortDescBy NameQty.quantity (aydCollect buckets s e).1.1)) 99⟩,
    ⟨(sortDescBy NameQty.quantity (aydCollect buckets s e).2.1).length,
      (aydCollect buckets s e).2.2,
      aydThreshold (aydCollect buckets s e).2.2
        (aydCurveAux (aydCollect buckets s e).2.2 0 0
          (sortDescBy NameQty.quantity (aydCollect buckets s e).2.1)) 50,
      aydThreshold (aydCollect buckets s e).2.2
        (aydCurveAux (aydCollect buckets s e).2.2 0 0
          (sortDescBy NameQty.quantity (aydCollect buckets s e).2.1)) 80,
      aydThreshold (aydCollect buckets s e).2.2
        (aydCurveAux (aydCollect buckets s e).2.2 0 0
          (sortDescBy NameQty.quantity (aydCollect buckets s e).2.1)) 90,
      aydThreshold (aydCollect buckets s e).2.2
        (aydCurveAux (aydCollect buckets s e).2.2 0 0
          (sortDescBy NameQty.quantity (aydCollect buckets s e).2.1)) 95,
      aydThreshold (aydCollect buckets s e).2.2
        (aydCurveAux (aydCollect buckets s e).2.2 0 0
          (sortDescBy NameQty.quantity (aydCollect buckets s e).2.1)) 99⟩,
    some (aydCurveAux (aydCollect buckets s e).1.2 0 0
      (sortDescBy NameQty.quantity (aydCollect buckets s e).1.1)),
    some (aydCurveAux (aydCollect buckets s e).2.2 0 0
      (sortDescBy NameQty.quantity (aydCollect buckets s e).2.1))⟩

unseal Rat.add Rat.mul Rat.inv Rat.sub in
/-- Counterexample to C3 as stated: with maximum point count 0 and the
non-empty rank-ordered input `[{rank 1}]` (so that the input is longer
than the maximum and the sampling branch runs), the loop never executes,
the first- and last-point force-inclusions both fire for the same point,
and the output `[{rank 1}, {rank 1}]` has a duplicate rank. -/
theorem sampleCurvePoints_cex :
    ¬ ((sampleCurvePoints (fun _ => 1) [⟨1, 0, 5, some 100⟩] 0).map
        CurvePoint.rank).Nodup := by
  decide

unseal Rat.add Rat.mul Rat.inv Rat.sub in
/-- Witness for C3 (amended): a three-point rank-ordered curve sampled
down to one point contains rank 1 and rank 3, has distinct ranks, at most
3 points, and is rank-sorted. -/
theorem sampleCurvePoints_spec_witness :
    ([⟨1, 0, 5, some 50⟩, ⟨2, 1, 3, some 80⟩, ⟨3, 2, 2, some 100⟩]
          : List CurvePoint).getD 0 default
        ∈ sampleCurvePoints (fun _ => 1)
          [⟨1, 0, 5, some 50⟩, ⟨2, 1, 3, some 80⟩, ⟨3, 2, 2, some 100⟩] 1
    ∧ ([⟨1, 0, 5, some 50⟩, ⟨2, 1, 3, some 80⟩, ⟨3, 2, 2, some 100⟩]
          : List CurvePoint).getD
          (([⟨1, 0, 5, some 50⟩, ⟨2, 1, 3, some 80⟩, ⟨3, 2, 2, some 100⟩]
            : List CurvePoint).length - 1) default
        ∈ sampleCurvePoints (fun _ => 1)
          [⟨1, 0, 5, some 50⟩, ⟨2, 1, 3, some 80⟩, ⟨3, 2, 2, some 100⟩] 1
    ∧ ((sampleCurvePoints (fun _ => 1)
          [⟨1, 0, 5, some 50⟩, ⟨2, 1, 3, some 80⟩, ⟨3, 2, 2, some 100⟩] 1).map
        CurvePoint.rank).Nodup
    ∧ (sampleCurvePoints (fun _ => 1)
          [⟨1, 0, 5, some 50⟩, ⟨2, 1, 3, some 80⟩, ⟨3, 2, 2, some 100⟩] 1).length
        ≤ 1 + 2
    ∧ (sampleCurvePoints (fun _ => 1)
          [⟨1, 0, 5, some 50⟩, ⟨2, 1, 3, some 80⟩, ⟨3, 2, 2, some 100⟩] 1).Pairwise
        (fun a b => a.rank ≤ b.rank) :=
  (sampleCurvePoints_spec (fun _ => 1)
      [⟨1, 0, 5, some 50⟩, ⟨2, 1, 3, some 80⟩, ⟨3, 2, 2, some 100⟩] 1).2
    (by decide) (by decide) (by decide)
    (by
      intro i h
      simp only [List.length_cons, List.length_nil] at h
      interval_cases i <;> rfl)

set_option maxRecDepth 10000 in
unseal Rat.add Rat.mul Rat.inv Rat.sub in
/-- Counterexample to C9 as stated: a 2010s decade with three colors of
quantities 4, 1, 1 (total 6) yields rounded percents 66.67, 16.67, 16.67,
which sum to 100.01 — more than 100 although the decade has at most 10
distinct colors. -/
theorem decadeColorsBounds_cex :
    ((decadeColors [(0, ⟨0, 10, 100⟩), (1, ⟨1, 11, 101⟩), (2, ⟨2, 12, 102⟩)]
        [(0, 0)] [(0, ⟨0, some 2015, 0⟩)]
        [⟨0, 1, 0, 4, none⟩, ⟨0, 2, 1, 1, none⟩, ⟨0, 3, 2, 1, none⟩]).map
      (fun d => (d.colors.map DecadeColorItem.percent).sum)) = [10001 / 100]
    ∧ ¬ ((10001 : ℚ) / 100 ≤ 100) := by
  constructor
  · decide
  · decide

set_option maxRecDepth 10000 in
unseal Rat.add Rat.mul Rat.inv Rat.sub in
/-- Witness for C9 (amended), on the same three-color 2010s input: the
emitted decade entry is non-empty, has at most 10 colors, and its percent
sum 100.01 stays within 100 plus 3 times 0.005. -/
theorem decadeColorsBounds_witness :
    (⟨2010, [⟨10, 100, 6667 / 100⟩, ⟨11, 101, 1667 / 100⟩, ⟨12, 102, 1667 / 100⟩]⟩
        : DecadeColorEntry).colors ≠ []
    ∧ (⟨2010, [⟨10, 100, 6667 / 100⟩, ⟨11, 101, 1667 / 100⟩, ⟨12, 102, 1667 / 100⟩]⟩
        : DecadeColorEntry).colors.length ≤ 10
    ∧ (((⟨2010, [⟨10, 100, 6667 / 100⟩, ⟨11, 101, 1667 / 100⟩, ⟨12, 102, 1667 / 100⟩]⟩
        : DecadeColorEntry).colors.map DecadeColorItem.percent).sum
          ≤ 100 + ((⟨2010, [⟨10, 100, 6667 / 100⟩, ⟨11, 101, 1667 / 100⟩,
              ⟨12, 102, 1667 / 100⟩]⟩
            : DecadeColorEntry).colors.length : ℚ) * (1 / 200)) :=
  (decadeColorsBounds [(0, ⟨0, 10, 100⟩), (1, ⟨1, 11, 101⟩), (2, ⟨2, 12, 102⟩)]
      [(0, 0)] [(0, ⟨0, some 2015, 0⟩)]
      [⟨0, 1, 0, 4, none⟩, ⟨0, 2, 1, 1, none⟩, ⟨0, 3, 2, 1, none⟩]).2
    ⟨2010, [⟨10, 100, 6667 / 100⟩, ⟨11, 101, 1667 / 100⟩, ⟨12, 102, 1667 / 100⟩]⟩
    (by decide)

unseal Rat.add Rat.mul Rat.inv Rat.sub in
/-- Witness for C10, on a one-row input producing one inventory year trend
(year 2000, one set, average 3). -/
theorem yearTrendSetsPositive_witness :
    1 ≤ (⟨2000, 3, 1, some 3, some 0, some 1, some 1, some 0, some 1, some 1,
        DataSource.inventory⟩ : YearTrend).total_sets
    ∧ (⟨2000, 3, 1, some 3, some 0, some 1, some 1, some 0, some 1, some 1,
        DataSource.inventory⟩ : YearTrend).avg_pieces_per_set.isSome :=
  yearTrendSetsPositive [] [] [(0, 0)] [(0, ⟨0, some 2000, 10⟩)]
    [⟨0, 1, 2, 3, none⟩] []
    ⟨2000, 3, 1, some 3, some 0, some 1, some 1, some 0, some 1, some 1,
      DataSource.inventory⟩ (by decide)

/-! ### C8: the custom-range fast path versus the raw-row rescan -/

theorem sampleCurvePoints_short (rnk : ℕ → ℕ) (data : List CurvePoint)
    (M : ℕ) (h : data.length ≤ M) : sampleCurvePoints rnk data M = data := by
  simp only [sampleCurvePoints]
  rw [if_pos h]

theorem bumpCount_snd_sum (k q : ℕ) :
    ∀ m : List (ℕ × ℕ),
      ((bumpCount m k q).map Prod.snd).sum = (m.map Prod.snd).sum + q
  | [] => by simp [bumpCount]
  | (k', v) :: rest => by
    by_cases h : k' = k
    · simp only [bumpCount, if_pos h, List.map_cons, List.sum_cons]
      omega
    · simp only [bumpCount, if_neg h, List.map_cons, List.sum_cons,
        bumpCount_snd_sum k q rest]
      omega

theorem colorBump_qty_sum (c : Color) (q : ℕ) :
    ∀ m : List ColorAggEntry,
      ((colorBump c q m).map ColorAggEntry.quantity).sum
        = (m.map ColorAggEntry.quantity).sum + q
  | [] => by simp [colorBump]
  | e :: rest => by
    by_cases h : (e.color, e.name) = (c.rgb, c.name)
    · simp only [colorBump, if_pos h, List.map_cons, List.sum_cons]
      omega
    · simp only [colorBump, if_neg h, List.map_cons, List.sum_cons,
        colorBump_qty_sum c q rest]
      omega

/-- Accounting device: the quantity a single row contributes to a
period-filtered aggregation whose per-row contribution is `Q`. -/
def rowGate (invMap : List (ℕ × ℕ)) (setMap : List (ℕ × SetRec))
    (keep : ℤ → Bool) (ip : InventoryPartRow) (Q : ℕ) : ℕ :=
  match resolveSetYear invMap setMap ip with
  | none => 0
  | some y => if keep y then Q else 0

/-- The quantity a row contributes to the period part aggregation. -/
def rowKeepQty (invMap : List (ℕ × ℕ)) (setMap : List (ℕ × SetRec))
    (keep : ℤ → Bool) (ip : InventoryPartRow) : ℕ :=
  rowGate invMap setMap keep ip ip.quantity

/-- The quantity a row contributes to the period color aggregation (zero
when the color id does not resolve). -/
def rowKeepColorQty (colorMap : List (ℕ × Color)) (invMap : List (ℕ × ℕ))
    (setMap : List (ℕ × SetRec)) (keep : ℤ → Bool)
    (ip : InventoryPartRow) : ℕ :=
  rowGate invMap setMap keep ip
    (match mapGet colorMap ip.color_id with
      | none => 0
      | some _ => ip.quantity)

theorem periodPartAgg_foldl_sum (invMap : List (ℕ × ℕ))
    (setMap : List (ℕ × SetRec)) (keep : ℤ → Bool) :
    ∀ (rows : List InventoryPartRow) (m : List (ℕ × ℕ)),
      (((rows.foldl (periodPartStep invMap setMap keep) m)).map Prod.snd).sum
        = (m.map Prod.snd).sum
          + (rows.map (rowKeepQty invMap setMap keep)).sum
  | [], m => by simp
  | ip :: rows, m => by
    rw [List.foldl_cons, periodPartAgg_foldl_sum invMap setMap keep rows]
    cases hy : resolveSetYear invMap setMap ip with
    | none =>
      simp only [List.map_cons, List.sum_cons, rowKeepQty, rowGate,
        periodPartStep, hy]
      omega
    | some y =>
      by_cases hk : keep y
      · simp only [List.map_cons, List.sum_cons, rowKeepQty, rowGate,
          periodPartStep, hy, if_pos hk, bumpCount_snd_sum]
        omega
      · simp only [List.map_cons, List.sum_cons, rowKeepQty, rowGate,
          periodPartStep, hy, if_neg hk]
        omega

theorem periodColorAgg_foldl_sum (colorMap : List (ℕ × Color))
    (invMap : List (ℕ × ℕ)) (setMap : List (ℕ × SetRec)) (keep : ℤ → Bool) :
    ∀ (rows : List InventoryPartRow) (m : List ColorAggEntry),
      (((rows.foldl (periodColorStep colorMap invMap setMap keep) m)).map
          ColorAggEntry.quantity).sum
        = (m.map ColorAggEntry.quantity).sum
          + (rows.map (rowKeepColorQty colorMap invMap setMap keep)).sum
  | [], m => by simp
  | ip :: rows, m => by
    rw [List.foldl_cons,
      periodColorAgg_foldl_sum colorMap invMap setMap keep rows]
    cases hy : resolveSetYear invMap setMap ip with
    | none =>
      simp only [List.map_cons, List.sum_cons, rowKeepColorQty, rowGate,
        periodColorStep, hy]
      omega
    | some y =>
      by_cases hk : keep y
      · cases hc : mapGet colorMap ip.color_id with
        | none =>
          simp only [List.map_cons, List.sum_cons, rowKeepColorQty, rowGate,
            periodColorStep, hy, if_pos hk, hc]
          omega
        | some c =>
          simp only [List.map_cons, List.sum_cons, rowKeepColorQty, rowGate,
            periodColorStep, hy, if_pos hk, hc, colorBump_qty_sum]
          omega
      · simp only [List.map_cons, List.sum_cons, rowKeepColorQty, rowGate,
          periodColorStep, hy, if_neg hk]
        omega

theorem periodPartsTotal_eq (invMap : List (ℕ × ℕ))
    (setMap : List (ℕ × SetRec)) (keep : ℤ → Bool)
    (rows : List InventoryPartRow) :
    periodPartsTotal invMap setMap keep rows
      = (rows.map (rowKeepQty invMap setMap keep)).sum := by
  rw [periodPartsTotal, foldl_add_eq Prod.snd]
  rw [List.Perm.sum_eq (List.Perm.map Prod.snd (sortDescBy_perm _ _))]
  have := periodPartAgg_foldl_sum invMap setMap keep rows []
  simp only [periodPartAgg, List.map_nil, List.sum_nil, Nat.zero_add] at this ⊢
  exact this

theorem periodColorsTotal_eq (colorMap : List (ℕ × Color))
    (invMap : List (ℕ × ℕ)) (setMap : List (ℕ × SetRec)) (keep : ℤ → Bool)
    (rows : List InventoryPartRow) :
    periodColorsTotal colorMap invMap setMap keep rows
      = (rows.map (rowKeepColorQty colorMap invMap setMap keep)).sum := by
  rw [periodColorsTotal, foldl_add_eq ColorAggEntry.quantity]
  rw [List.Perm.sum_eq
    (List.Perm.map ColorAggEntry.quantity (sortDescBy_perm _ _))]
  have := periodColorAgg_foldl_sum colorMap invMap setMap keep rows []
  simp only [periodColorAgg, List.map_nil, List.sum_nil, Nat.zero_add]
    at this ⊢
  exact this

theorem aydCollectCurve_snd :
    ∀ (curve : List CurvePoint) (st : List NameQty × ℕ),
      (aydCollectCurve st curve).2
        = st.2 + (curve.map CurvePoint.quantity).sum
  | [], st => by simp [aydCollectCurve]
  | p :: curve, st => by
    have hstep : aydCollectCurve st (p :: curve)
        = aydCollectCurve (nqBump st.1 p.name p.quantity, st.2 + p.quantity)
          curve := by
      simp only [aydCollectCurve, List.foldl_cons]
    rw [hstep, aydCollectCurve_snd curve]
    simp only [List.map_cons, List.sum_cons]
    omega

/-- The part quantity one bucket contributes to the fast path's total. -/
def bucketPartsQty : Option PeriodDataWithCurves → ℕ
  | none => 0
  | some b =>
    match b.parts_curve with
    | none => 0
    | some curve => (curve.map CurvePoint.quantity).sum

/-- The color quantity one bucket contributes to the fast path's total. -/
def bucketColorsQty : Option PeriodDataWithCurves → ℕ
  | none => 0
  | some b =>
    match b.colors_curve with
    | none => 0
    | some curve => (curve.map CurvePoint.quantity).sum

theorem aydCollect_foldl (buckets : ℤ → Option PeriodDataWithCurves) :
    ∀ (years : List ℤ) (st : (List NameQty × ℕ) × (List NameQty × ℕ)),
      (years.foldl (aydYearStep buckets) st).1.2
          = st.1.2 + (years.map (fun y => bucketPartsQty (buckets y))).sum
        ∧ (years.foldl (aydYearStep buckets) st).2.2
          = st.2.2 + (years.map (fun y => bucketColorsQty (buckets y))).sum
  | [], st => by simp
  | y :: years, st => by
    rw [List.foldl_cons]
    refine ⟨?_, ?_⟩
    · rw [(aydCollect_foldl buckets years (aydYearStep buckets st y)).1]
      cases hb : buckets y with
      | none =>
        simp only [List.map_cons, List.sum_cons, aydYearStep, hb,
          bucketPartsQty]
        omega
      | some b =>
        cases hc : b.parts_curve with
        | none =>
          simp only [List.map_cons, List.sum_cons, aydYearStep, hb,
            bucketPartsQty, hc]
          omega
        | some curve =>
          simp only [List.map_cons, List.sum_cons, aydYearStep, hb,
            bucketPartsQty, hc, aydCollectCurve_snd]
          omega
    · rw [(aydCollect_foldl buckets years (aydYearStep buckets st y)).2]
      cases hb : buckets y with
      | none =>
        simp only [List.map_cons, List.sum_cons, aydYearStep, hb,
          bucketColorsQty]
        omega
      | some b =>
        cases hc : b.colors_curve with
        | none =>
          simp only [List.map_cons, List.sum_cons, aydYearStep, hb,
            bucketColorsQty, hc]
          omega
        | some curve =>
          simp only [List.map_cons, List.sum_cons, aydYearStep, hb,
            bucketColorsQty, hc, aydCollectCurve_snd]
          omega

theorem aydCollect_parts_total (buckets : ℤ → Option PeriodDataWithCurves)
    (s e : ℤ) :
    (aydCollect buckets s e).1.2
      = ((yearList s e).map (fun y => bucketPartsQty (buckets y))).sum := by
  have := (aydCollect_foldl buckets (yearList s e) (([], 0), ([], 0))).1
  simpa [aydCollect] using this

theorem aydCollect_colors_total (buckets : ℤ → Option PeriodDataWithCurves)
    (s e : ℤ) :
    (aydCollect buckets s e).2.2
      = ((yearList s e).map (fun y => bucketColorsQty (buckets y))).sum := by
  have := (aydCollect_foldl buckets (yearList s e) (([], 0), ([], 0))).2
  simpa [aydCollect] using this

theorem periodCurve_qty_map (items : List PeriodItem) :
    (periodCurve items).map CurvePoint.quantity
      = items.map PeriodItem.quantity := by
  simp only [periodCurve, List.map_map]
  rfl

theorem periodPartItemsAux_qty_map (partMap : List (ℕ × Part)) (total : ℕ) :
    ∀ (cum idx : ℕ) (l : List (ℕ × ℕ)),
      (periodPartItemsAux partMap total cum idx l).map PeriodItem.quantity
        = l.map Prod.snd
  | _, _, [] => by simp [periodPartItemsAux]
  | cum, idx, p :: rest => by
    simp only [periodPartItemsAux, List.map_cons,
      periodPartItemsAux_qty_map partMap total (cum + p.2) (idx + 1) rest]

theorem periodColorItemsAux_qty_map (total : ℕ) :
    ∀ (cum idx : ℕ) (l : List ColorAggEntry),
      (periodColorItemsAux total cum idx l).map PeriodItem.quantity
        = l.map ColorAggEntry.quantity
  | _, _, [] => by simp [periodColorItemsAux]
  | cum, idx, c :: rest => by
    simp only [periodColorItemsAux, List.map_cons,
      periodColorItemsAux_qty_map total (cum + c.quantity) (idx + 1) rest]

theorem periodPartItems_qty_sum (invMap : List (ℕ × ℕ))
    (setMap : List (ℕ × SetRec)) (partMap : List (ℕ × Part))
    (keep : ℤ → Bool) (rows : List InventoryPartRow) :
    ((periodPartItems invMap setMap partMap keep rows).map
        PeriodItem.quantity).sum
      = periodPartsTotal invMap setMap keep rows := by
  rw [periodPartItems, periodPartItemsAux_qty_map, periodPartsTotal,
    foldl_add_eq Prod.snd]
  omega

theorem periodColorItems_qty_sum (colorMap : List (ℕ × Color))
    (invMap : List (ℕ × ℕ)) (setMap : List (ℕ × SetRec)) (keep : ℤ → Bool)
    (rows : List InventoryPartRow) :
    ((periodColorItems colorMap invMap setMap keep rows).map
        PeriodItem.quantity).sum
      = periodColorsTotal colorMap invMap setMap keep rows := by
  rw [periodColorItems, periodColorItemsAux_qty_map, periodColorsTotal,
    foldl_add_eq ColorAggEntry.quantity]
  omega

theorem perYearBuckets_partsQty (rnkFam : ℕ → ℕ → ℕ)
    (colorMap : List (ℕ × Color)) (partMap : List (ℕ × Part))
    (invMap : List (ℕ × ℕ)) (setMap : List (ℕ × SetRec))
    (rows : List InventoryPartRow) (y : ℤ)
    (h : (periodPartItems invMap setMap partMap (rangeKeep y y) rows).length
      ≤ 500) :
    bucketPartsQty
        (perYearBuckets rnkFam colorMap partMap invMap setMap rows y)
      = (rows.map (rowKeepQty invMap setMap (rangeKeep y y))).sum := by
  have hlen : (periodCurve
      (periodPartItems invMap setMap partMap (rangeKeep y y) rows)).length
      ≤ 500 := by
    simpa [periodCurve] using h
  simp only [perYearBuckets, bucketPartsQty, computePeriodCoverageRange,
    sampleCurvePoints_short _ _ _ hlen]
  rw [periodCurve_qty_map, periodPartItems_qty_sum, periodPartsTotal_eq]

theorem perYearBuckets_colorsQty (rnkFam : ℕ → ℕ → ℕ)
    (colorMap : List (ℕ × Color)) (partMap : List (ℕ × Part))
    (invMap : List (ℕ × ℕ)) (setMap : List (ℕ × SetRec))
    (rows : List InventoryPartRow) (y : ℤ)
    (h : (periodColorItems colorMap invMap setMap (rangeKeep y y)
      rows).length ≤ 500) :
    bucketColorsQty
        (perYearBuckets rnkFam colorMap partMap invMap setMap rows y)
      = (rows.map (rowKeepColorQty colorMap invMap setMap
          (rangeKeep y y))).sum := by
  have hlen : (periodCurve
      (periodColorItems colorMap invMap setMap (rangeKeep y y) rows)).length
      ≤ 500 := by
    simpa [periodCurve] using h
  simp only [perYearBuckets, bucketColorsQty, computePeriodCoverageRange,
    sampleCurvePoints_short _ _ _ hlen]
  rw [periodCurve_qty_map, periodColorItems_qty_sum, periodColorsTotal_eq]

theorem sum_map_add_nat {β : Type} (g h : β → ℕ) :
    ∀ R : List β,
      (R.map (fun r => g r + h r)).sum = (R.map g).sum + (R.map h).sum
  | [] => by simp
  | r :: R => by
    simp only [List.map_cons, List.sum_cons, sum_map_add_nat g h R]
    omega

theorem sum_map_swap {α β : Type} (f : α → β → ℕ) :
    ∀ (L : List α) (R : List β),
      (L.map (fun y => (R.map (f y)).sum)).sum
        = (R.map (fun r => (L.map (fun y => f y r)).sum)).sum
  | [], R => by simp
  | y :: L, R => by
    simp only [List.map_cons, List.sum_cons, sum_map_swap f L R]
    rw [sum_map_add_nat (fun r => f y r)
      (fun r => (L.map (fun y' => f y' r)).sum) R]

theorem sum_map_ite_not_mem (q : ℕ) (yr : ℤ) :
    ∀ L : List ℤ, yr ∉ L →
      (L.map (fun y => if yr = y then q else 0)).sum = 0
  | [], _ => by simp
  | y :: L, h => by
    have hy : yr ≠ y := fun hc => h (hc ▸ List.mem_cons_self y L)
    have hL : yr ∉ L := fun hc => h (List.mem_cons_of_mem y hc)
    simp only [List.map_cons, List.sum_cons, if_neg hy,
      sum_map_ite_not_mem q yr L hL]

theorem sum_map_ite_mem (q : ℕ) (yr : ℤ) :
    ∀ L : List ℤ, L.Nodup →
      (L.map (fun y => if yr = y then q else 0)).sum
        = if yr ∈ L then q else 0
  | [], _ => by simp
  | y :: L, h => by
    rcases List.nodup_cons.mp h with ⟨hy, hnd⟩
    by_cases hyr : yr = y
    · subst hyr
      simp only [List.map_cons, List.sum_cons, if_pos rfl,
        sum_map_ite_not_mem q yr L hy, List.mem_cons, true_or, if_true]
      omega
    · simp only [List.map_cons, List.sum_cons, if_neg hyr,
        sum_map_ite_mem q yr L hnd, List.mem_cons]
      have : (yr = y ∨ yr ∈ L) ↔ yr ∈ L := by
        constructor
        · rintro (hc | hc)
          · exact absurd hc hyr
          · exact hc
        · exact Or.inr
      rw [if_congr this rfl rfl]
      omega

theorem yearList_mem (s e y : ℤ) : y ∈ yearList s e ↔ s ≤ y ∧ y ≤ e := by
  simp only [yearList, List.mem_map, List.mem_range]
  constructor
  · rintro ⟨i, hi, rfl⟩
    omega
  · rintro ⟨h1, h2⟩
    exact ⟨(y - s).toNat, by omega, by omega⟩

theorem yearList_nodup (s e : ℤ) : (yearList s e).Nodup := by
  refine List.Nodup.map ?_ (List.nodup_range _)
  intro a b hab
  simp only [add_right_inj, Nat.cast_inj] at hab
  exact hab

theorem rowGate_year_sum (invMap : List (ℕ × ℕ))
    (setMap : List (ℕ × SetRec)) (ip : InventoryPartRow) (Q : ℕ)
    (s e : ℤ) :
    ((yearList s e).map
        (fun y => rowGate invMap setMap (rangeKeep y y) ip Q)).sum
      = rowGate invMap setMap (rangeKeep s e) ip Q := by
  cases hy : resolveSetYear invMap setMap ip with
  | none => simp [rowGate, hy]
  | some yr =>
    have hpt : ∀ y : ℤ,
        rowGate invMap setMap (rangeKeep y y) ip Q
          = if yr = y then Q else 0 := by
      intro y
      have hcond : (rangeKeep y y yr = true) ↔ (yr = y) := by
        simp only [rangeKeep, Bool.and_eq_true, decide_eq_true_eq]
        omega
      simp only [rowGate, hy]
      by_cases hc : yr = y
      · rw [if_pos (hcond.mpr hc), if_pos hc]
      · rw [if_neg (fun hb => hc (hcond.mp hb)), if_neg hc]
    rw [List.map_congr_left (fun y _ => hpt y),
      sum_map_ite_mem Q yr (yearList s e) (yearList_nodup s e)]
    have hmem : (yr ∈ yearList s e) ↔ (rangeKeep s e yr = true) := by
      simp only [yearList_mem, rangeKeep, Bool.and_eq_true,
        decide_eq_true_eq]
    simp only [rowGate, hy]
    by_cases hc : rangeKeep s e yr = true
    · rw [if_pos (hmem.mpr hc), if_pos hc]
    · rw [if_neg (fun hb => hc (hmem.mp hb)), if_neg hc]

theorem rowKeepQty_year_sum (invMap : List (ℕ × ℕ))
    (setMap : List (ℕ × SetRec)) (ip : InventoryPartRow) (s e : ℤ) :
    ((yearList s e).map
        (fun y => rowKeepQty invMap setMap (rangeKeep y y) ip)).sum
      = rowKeepQty invMap setMap (rangeKeep s e) ip := by
  simp only [rowKeepQty]
  exact rowGate_year_sum invMap setMap ip ip.quantity s e

theorem rowKeepColorQty_year_sum (colorMap : List (ℕ × Color))
    (invMap : List (ℕ × ℕ)) (setMap : List (ℕ × SetRec))
    (ip : InventoryPartRow) (s e : ℤ) :
    ((yearList s e).map
        (fun y => rowKeepColorQty colorMap invMap setMap (rangeKeep y y) ip)).sum
      = rowKeepColorQty colorMap invMap setMap (rangeKeep s e) ip := by
  simp only [rowKeepColorQty]
  exact rowGate_year_sum invMap setMap ip _ s e

set_option maxRecDepth 10000 in
unseal Rat.add Rat.mul Rat.inv Rat.sub in
/-- Counterexample to C8 as stated: two rows of quantities 2 and 1 in year
2015 and the custom range 2015 to 2016.  The rescan's threshold items carry
percents rounded to 4 decimals (66.6667), while the fast path recomputes
them unrounded from the merged quantities (200/3), so the two paths'
`PeriodCoverageData` records differ even though their totals agree. -/
theorem customRangeConsistency_cex :
    ¬ ((aggregateYearData
          (perYearBuckets (fun _ _ => 1) [(0, ⟨0, 20, 30⟩)]
            [(10, ⟨10, 100⟩), (11, ⟨11, 101⟩)] [(0, 0)]
            [(0, ⟨0, some 2015, 0⟩)]
            [⟨0, 10, 0, 2, none⟩, ⟨0, 11, 0, 1, none⟩])
          2015 2016).parts
        = (computePeriodCoverageRange (fun _ _ => 1) [(0, ⟨0, 20, 30⟩)]
            [(10, ⟨10, 100⟩), (11, ⟨11, 101⟩)] [(0, 0)]
            [(0, ⟨0, some 2015, 0⟩)]
            [⟨0, 10, 0, 2, none⟩, ⟨0, 11, 0, 1, none⟩]
            2015 2016).parts) := by
  decide

/-- C8 (amended): for every custom year range, if each year's bucketed
curve is complete (at most 500 items, so the curve sampler leaves it
unchanged), then the fast path that aggregates pre-bucketed per-year curve
data produces the same part and color grand totals (`total_quantity`) as
rescanning the raw inventory-part rows restricted to that range.  Full
`PeriodCoverageData` equality does not hold: the rescan rounds percents to
4 decimals, the fast path recomputes them unrounded. -/
theorem customRangeConsistency (rnkFam : ℕ → ℕ → ℕ)
    (colorMap : List (ℕ × Color)) (partMap : List (ℕ × Part))
    (invMap : List (ℕ × ℕ)) (setMap : List (ℕ × SetRec))
    (rows : List InventoryPartRow) (s e : ℤ)
    (hparts : ∀ y : ℤ, s ≤ y → y ≤ e →
      (periodPartItems invMap setMap partMap (rangeKeep y y) rows).length
        ≤ 500)
    (hcolors : ∀ y : ℤ, s ≤ y → y ≤ e →
      (periodColorItems colorMap invMap setMap (rangeKeep y y) rows).length
        ≤ 500) :
    (aggregateYearData
        (perYearBuckets rnkFam colorMap partMap invMap setMap rows) s
        e).parts.total_quantity
      = (computePeriodCoverageRange rnkFam colorMap partMap invMap setMap
          rows s e).parts.total_quantity
    ∧ (aggregateYearData
        (perYearBuckets rnkFam colorMap partMap invMap setMap rows) s
        e).colors.total_quantity
      = (computePeriodCoverageRange rnkFam colorMap partMap invMap setMap
          rows s e).colors.total_quantity := by
  constructor
  · show (aydCollect (perYearBuckets rnkFam colorMap partMap invMap setMap
        rows) s e).1.2
      = periodPartsTotal invMap setMap (rangeKeep s e) rows
    rw [aydCollect_parts_total]
    rw [List.map_congr_left (fun y hy =>
      perYearBuckets_partsQty rnkFam colorMap partMap invMap setMap rows y
        (hparts y ((yearList_mem s e y).mp hy).1
          ((yearList_mem s e y).mp hy).2))]
    rw [sum_map_swap
      (fun y r => rowKeepQty invMap setMap (rangeKeep y y) r)
      (yearList s e) rows]
    rw [List.map_congr_left (fun r _ =>
      rowKeepQty_year_sum invMap setMap r s e)]
    rw [periodPartsTotal_eq]
  · show (aydCollect (perYearBuckets rnkFam colorMap partMap invMap setMap
        rows) s e).2.2
      = periodColorsTotal colorMap invMap setMap (rangeKeep s e) rows
    rw [aydCollect_colors_total]
    rw [List.map_congr_left (fun y hy =>
      perYearBuckets_colorsQty rnkFam colorMap partMap invMap setMap rows y
        (hcolors y ((yearList_mem s e y).mp hy).1
          ((yearList_mem s e y).mp hy).2))]
    rw [sum_map_swap
      (fun y r => rowKeepColorQty colorMap invMap setMap (rangeKeep y y) r)
      (yearList s e) rows]
    rw [List.map_congr_left (fun r _ =>
      rowKeepColorQty_year_sum colorMap invMap setMap r s e)]
    rw [periodColorsTotal_eq]

set_option maxRecDepth 10000 in
unseal Rat.add Rat.mul Rat.inv Rat.sub in
/-- Witness for C8 on the two-row input of the counterexample: the
per-year curves have at most 2 items, and the two paths' part and color
grand totals agree (both are 3). -/
theorem customRangeConsistency_witness :
    (∀ y : ℤ, (2015 : ℤ) ≤ y → y ≤ 2016 →
      (periodPartItems [(0, 0)] [(0, ⟨0, some 2015, 0⟩)]
        [(10, ⟨10, 100⟩), (11, ⟨11, 101⟩)] (rangeKeep y y)
        [⟨0, 10, 0, 2, none⟩, ⟨0, 11, 0, 1, none⟩]).length ≤ 500)
    ∧ (∀ y : ℤ, (2015 : ℤ) ≤ y → y ≤ 2016 →
      (periodColorItems [(0, ⟨0, 20, 30⟩)] [(0, 0)]
        [(0, ⟨0, some 2015, 0⟩)] (rangeKeep y y)
        [⟨0, 10, 0, 2, none⟩, ⟨0, 11, 0, 1, none⟩]).length ≤ 500)
    ∧ ((aggregateYearData
          (perYearBuckets (fun _ _ => 1) [(0, ⟨0, 20, 30⟩)]
            [(10, ⟨10, 100⟩), (11, ⟨11, 101⟩)] [(0, 0)]
            [(0, ⟨0, some 2015, 0⟩)]
            [⟨0, 10, 0, 2, none⟩, ⟨0, 11, 0, 1, none⟩])
          2015 2016).parts.total_quantity
        = (computePeriodCoverageRange (fun _ _ => 1) [(0, ⟨0, 20, 30⟩)]
            [(10, ⟨10, 100⟩), (11, ⟨11, 101⟩)] [(0, 0)]
            [(0, ⟨0, some 2015, 0⟩)]
            [⟨0, 10, 0, 2, none⟩, ⟨0, 11, 0, 1, none⟩]
            2015 2016).parts.total_quantity
      ∧ (aggregateYearData
          (perYearBuckets (fun _ _ => 1) [(0, ⟨0, 20, 30⟩)]
            [(10, ⟨10, 100⟩), (11, ⟨11, 101⟩)] [(0, 0)]
            [(0, ⟨0, some 2015, 0⟩)]
            [⟨0, 10, 0, 2, none⟩, ⟨0, 11, 0, 1, none⟩])
          2015 2016).colors.total_quantity
        = (computePeriodCoverageRange (fun _ _ => 1) [(0, ⟨0, 20, 30⟩)]
            [(10, ⟨10, 100⟩), (11, ⟨11, 101⟩)] [(0, 0)]
            [(0, ⟨0, some 2015, 0⟩)]
            [⟨0, 10, 0, 2, none⟩, ⟨0, 11, 0, 1, none⟩]
            2015 2016).colors.total_quantity) := by
  have hp : ∀ y : ℤ, (2015 : ℤ) ≤ y → y ≤ 2016 →
      (periodPartItems [(0, 0)] [(0, ⟨0, some 2015, 0⟩)]
        [(10, ⟨10, 100⟩), (11, ⟨11, 101⟩)] (rangeKeep y y)
        [⟨0, 10, 0, 2, none⟩, ⟨0, 11, 0, 1, none⟩]).length ≤ 500 := by
    intro y h1 h2
    interval_cases y <;> decide
  have hc : ∀ y : ℤ, (2015 : ℤ) ≤ y → y ≤ 2016 →
      (periodColorItems [(0, ⟨0, 20, 30⟩)] [(0, 0)]
        [(0, ⟨0, some 2015, 0⟩)] (rangeKeep y y)
        [⟨0, 10, 0, 2, none⟩, ⟨0, 11, 0, 1, none⟩]).length ≤ 500 := by
    intro y h1 h2
    interval_cases y <;> decide
  exact ⟨hp, hc,
    customRangeConsistency (fun _ _ => 1) [(0, ⟨0, 20, 30⟩)]
      [(10, ⟨10, 100⟩), (11, ⟨11, 101⟩)] [(0, 0)]
      [(0, ⟨0, some 2015, 0⟩)]
      [⟨0, 10, 0, 2, none⟩, ⟨0, 11, 0, 1, none⟩] 2015 2016 hp hc⟩

end LegoStats
